import Mathlib

/-!
Verification development for the DevOps-interview evaluation engine
(`evaluation/` package: validators, orchestrator, scoring aggregator).

The Python sources are shallowly embedded: the filesystem, the external
parsers (python-hcl2, PyYAML, the Python `ast` module), the external
`shellcheck` binary and the opaque keyword-configuration file are modelled
as oracle fields of an `Env` record; all string processing, scoring
arithmetic and control flow of the validators is translated concretely.
Python `str` values are modelled as Lean `String`s; the line-splitting
helpers implement Python `str.splitlines` semantics restricted to the
newline character.  `re` patterns appearing literally in the source are
implemented as dedicated character-list scanners with the same semantics
(leftmost, non-overlapping matches); patterns coming from the external
keyword-configuration file are modelled by the oracle field `rmatch`.
-/

namespace DevOpsEval

/-! ## Character and string primitives (Python semantics) -/

/-- Whitespace characters recognised by Python's `str.strip` and by the
regex class used in the validators (restricted to the ASCII range). -/
def isWsC (c : Char) : Bool :=
  c = ' ' || c = '\t' || c = '\n' || c = '\r' || c = '\x0b' || c = '\x0c'

/-- ASCII lower-casing of one character (Python `str.lower` on the
character set actually occurring in the validators). -/
def lowerC (c : Char) : Char :=
  if 'A' ≤ c && c ≤ 'Z' then Char.ofNat (c.toNat + 32) else c

/-- Lower-case a character list. -/
def lowerL (l : List Char) : List Char := l.map lowerC

/-- Does the list start with the given pattern? -/
def leadsWith : List Char → List Char → Bool
  | [], _ => true
  | _ :: _, [] => false
  | p :: ps, c :: cs => p = c && leadsWith ps cs

/-- Does the pattern occur as a contiguous sublist (Python `in`)? -/
def hasSub (pat : List Char) : List Char → Bool
  | [] => leadsWith pat []
  | c :: cs => leadsWith pat (c :: cs) || hasSub pat cs

/-- Index of the first occurrence of the pattern, if any (Python `find`). -/
def subIdx (pat : List Char) : List Char → Option Nat
  | [] => if leadsWith pat [] then some 0 else none
  | c :: cs =>
    if leadsWith pat (c :: cs) then some 0
    else match subIdx pat cs with
         | some n => some (n + 1)
         | none => none

/-- Split on the newline character; always returns at least one piece. -/
def splitNl : List Char → List (List Char)
  | [] => [[]]
  | c :: cs =>
    if c = '\n' then [] :: splitNl cs
    else match splitNl cs with
         | [] => [[c]]
         | p :: ps => (c :: p) :: ps

/-- Python `str.splitlines` (newline-only model): the empty string has no
lines, and a trailing newline does not produce a final empty line. -/
def pySplitlines (l : List Char) : List (List Char) :=
  if l.isEmpty then []
  else
    let ps := splitNl l
    if ps.getLast? = some [] then ps.dropLast else ps

/-- Python `"\n".join`. -/
def joinNl : List (List Char) → List Char
  | [] => []
  | [x] => x
  | x :: y :: rest => x ++ '\n' :: joinNl (y :: rest)

/-- Python `str.strip()` (whitespace from both ends). -/
def pyStrip (l : List Char) : List Char :=
  ((l.dropWhile isWsC).reverse.dropWhile isWsC).reverse

/-! String-level wrappers. -/

/-- Python `s.lower()`. -/
def strLower (s : String) : String := ⟨lowerL s.data⟩

/-- Python `pat in s` (substring containment). -/
def strHas (pat s : String) : Bool := hasSub pat.data s.data

/-- Python `s.startswith(pat)`. -/
def strLeads (pat s : String) : Bool := leadsWith pat.data s.data

/-- Python `s.endswith(pat)`. -/
def strEnds (pat s : String) : Bool := leadsWith pat.data.reverse s.data.reverse

/-- Python `s.strip()` at the `String` level. -/
def strStrip (s : String) : String := ⟨pyStrip s.data⟩

/-- Python `any(kw in s for kw in kws)`. -/
def containsAnyS (kws : List String) (s : String) : Bool :=
  kws.any (fun k => strHas k s)

/-- Python `s.splitlines()` at the `String` level. -/
def strSplitlines (s : String) : List String :=
  (pySplitlines s.data).map (fun l => ⟨l⟩)

/-- Python `"\n".join(ls)` at the `String` level. -/
def strJoinNl (ls : List String) : String := ⟨joinNl (ls.map String.data)⟩

/-- Python `os.path.join` for the two-component joins used by the code. -/
def pj (a b : String) : String := a ++ "/" ++ b

/-- Python `os.path.basename` for "/"-joined paths. -/
def pyBasename (p : String) : String :=
  ⟨((p.data.reverse.takeWhile (fun c => c ≠ '/')).reverse)⟩

/-! ## The Check record (`_check` helper common to all validators) -/

/-- Atomic scored judgment, as produced by every validator
(dict with keys name, max_points, points_awarded, passed, details). -/
structure Check where
  name : String
  max_points : Int
  points_awarded : Int
  passed : Bool
  details : String
deriving DecidableEq

/-- The `_check` constructor shared by the validator modules:
full points when passed, zero otherwise. -/
def mkCheck (name : String) (maxPts : Int) (passed : Bool) (details : String) : Check :=
  ⟨name, maxPts, if passed then maxPts else 0, passed, details⟩

/-! ## Oracle values for external collaborators -/

/-- Outcome of one `subprocess.run(["shellcheck", ...])` invocation. -/
inductive SCRes where
  | ok
  | fail
  | notFound
  | timeout
deriving DecidableEq

/-- Statement classification used by the AST walks: `pass`, a lone string
literal expression (docstring), or anything else. -/
inductive PyStmt where
  | passStmt
  | docString
  | other
deriving DecidableEq

/-- One `ast.FunctionDef` node: its name and classified body statements. -/
structure PyFunc where
  name : String
  body : List PyStmt
deriving DecidableEq

/-- Result of `ast.parse`: the function definitions found by `ast.walk`
plus the (abstracted) result of the `_has_argparse` AST walk. -/
structure PyModule where
  funcs : List PyFunc
  argparseUsage : Bool
deriving DecidableEq

/-- Parsed YAML value (`yaml.safe_load` result shape): scalars, sequences
and string-keyed mappings. -/
inductive YVal where
  | null
  | boolV (b : Bool)
  | intV (n : Int)
  | strV (s : String)
  | arr (vs : List YVal)
  | obj (kvs : List (String × YVal))

/-- Python truthiness of a YAML value. -/
def yTruthy : YVal → Bool
  | .null => false
  | .boolV b => b
  | .intV n => n ≠ 0
  | .strV s => s ≠ ""
  | .arr vs => !vs.isEmpty
  | .obj kvs => !kvs.isEmpty

/-- Is the value `None`? -/
def yIsNull : YVal → Bool
  | .null => true
  | _ => false

/-- Python `v == "lit"` for a YAML value against a string literal. -/
def yEqStr (v : YVal) (s : String) : Bool :=
  match v with
  | .strV t => t = s
  | _ => false

/-- Python `v is True`. -/
def yIsTrue : YVal → Bool
  | .boolV b => b
  | _ => false

/-! ## The environment: filesystem and external-tool oracles -/

/-- Abstraction of everything the validators observe from outside:
the filesystem, parser libraries, the shellcheck binary, and the
keyword-configuration file (an external collaborator per the design). -/
structure Env where
  /-- `os.path.isdir`. -/
  isDir : String → Bool
  /-- `os.listdir` (order is part of the environment). -/
  listDir : String → List String
  /-- Reading a file in text mode; `none` models `FileNotFoundError`/`IOError`. -/
  readFile : String → Option String
  /-- Whether `import hcl2` succeeded. -/
  hcl2Available : Bool
  /-- `hcl2.load` on a path: `none` is a parse/IO failure, `some b` records
  whether the parsed dict contains the key "resource". -/
  hclParse : String → Option Bool
  /-- `yaml.safe_load_all` on file contents: `none` is a `YAMLError`. -/
  yamlParse : String → Option (List YVal)
  /-- `yaml.safe_load` on file contents (single document): `none` is a
  `YAMLError`; a parsed Python `None` is `some .null`. -/
  yamlLoad : String → Option YVal
  /-- `ast.parse` on file contents: `none` is a `SyntaxError`. -/
  astParse : String → Option PyModule
  /-- One shellcheck invocation per file path. -/
  shellcheck : String → SCRes
  /-- The loaded keyword configuration: group name and field name
  (for example "keywords", "root_cause") to a pattern list.  A missing
  file or group degrades to the empty list, as in the source. -/
  keywords : String → String → List String
  /-- `re.search(pattern, text) is not None` for configuration patterns. -/
  rmatch : String → String → Bool

/-- `_read_file`: contents, or the empty string when the read fails. -/
def readS (env : Env) (p : String) : String := (env.readFile p).getD ""

/-! ## terraform_validator.py -/

namespace Tf

/-- Does the remainder of the line, after an optional whitespace run,
begin with a '#' that has no double quote anywhere after it?  This is
exactly where the inline-comment pattern of `_strip_tf_comments`,
a hash with a negative lookahead for a later quote, can start. -/
def wsThenHash (l : List Char) : Bool :=
  match l.dropWhile isWsC with
  | '#' :: rest => !rest.contains '"'
  | _ => false

/-- Drop everything from the leftmost inline-comment match to the end of
the line (the per-line substitution in `_strip_tf_comments`). -/
def tfInline : List Char → List Char
  | [] => []
  | c :: cs => if wsThenHash (c :: cs) then [] else c :: tfInline cs

/-- `_strip_tf_comments`: drop full-line `#`/`//` comments, remove
inline `#` comments, rejoin with newlines. -/
def stripTfComments (content : String) : String :=
  ⟨joinNl ((pySplitlines content.data).filterMap (fun line =>
    let st := pyStrip line
    if leadsWith "#".data st || leadsWith "//".data st then none
    else some (tfInline line)))⟩

/-- After optional whitespace, an '=' sign, more optional whitespace,
then the digits "22" (tail of the port patterns in the SSH regex). -/
def eqThen22 (l : List Char) : Bool :=
  match l.dropWhile isWsC with
  | '=' :: rest => leadsWith "22".data (rest.dropWhile isWsC)
  | _ => false

/-- Does a `from_port`/`to_port` `= 22` alternative of the SSH regex
match at the head of the list? -/
def portMatchAt (l : List Char) : Bool :=
  (leadsWith "from_port".data l && eqThen22 (l.drop 9)) ||
  (leadsWith "to_port".data l && eqThen22 (l.drop 7))

/-- Does a port pattern occur anywhere in the brace-free region? -/
def hasPortPat : List Char → Bool
  | [] => false
  | c :: cs => portMatchAt (c :: cs) || hasPortPat cs

/-- Attempt to match the ingress-block regex at the head of the list:
literal "ingress", optional whitespace, an opening brace, a run of
non-closing-brace characters containing a port-22 pattern, and the
closing brace.  Returns the matched block and the rest of the input. -/
def ingressAt (l : List Char) : Option (List Char × List Char) :=
  if leadsWith "ingress".data l then
    let afterKw := l.drop 7
    let ws := afterKw.takeWhile isWsC
    match afterKw.dropWhile isWsC with
    | '\x7b' :: body =>
      let region := body.takeWhile (fun c => c ≠ '\x7d')
      match body.dropWhile (fun c => c ≠ '\x7d') with
      | '\x7d' :: tail =>
        if hasPortPat region then
          some ("ingress".data ++ ws ++ '\x7b' :: (region ++ ['\x7d']), tail)
        else none
      | _ => none
    | _ => none
  else none

/-- Scan for the SSH ingress pattern followed by the `"0.0.0.0/0" in
block` test of the source: true when some matched block contains the
open CIDR.  The source evaluates the test on `re.findall`'s leftmost
non-overlapping matches and ors the results; scanning every start
position instead yields the same Boolean, because any match starting
strictly inside a findall block ends at the same closing brace and is
therefore a contiguous subspan of it, so it cannot contain the needle
unless the enclosing findall block does. -/
def sshOpenScan : List Char → Bool
  | [] => false
  | c :: cs =>
    (match ingressAt (c :: cs) with
     | some (block, _) => hasSub "0.0.0.0/0".data block
     | none => false) || sshOpenScan cs

/-- Does some matched ingress block of this file content open SSH to
0.0.0.0/0? -/
def sshOpen (content : String) : Bool := sshOpenScan content.data

/-- `_parse_hcl_file`, including the availability guard. -/
def parseHclFile (env : Env) (fpath : String) : Option Bool :=
  if env.hcl2Available then env.hclParse fpath else none

/-- Stripped non-comment lines of a Terraform file (the skeleton test in
check 2 of the validator). -/
def tfContentLines (content : String) : List (List Char) :=
  (pySplitlines content.data).filterMap (fun l =>
    let st := pyStrip l
    if st.isEmpty then none
    else if leadsWith "#".data st || leadsWith "//".data st then none
    else some st)

/-- Comment lines of `cost_optimization.tf` that are long enough and
avoid every marker in the given list (checks 6 and 7). -/
def costCommentLines (markers : List String) (raw : String) : List String :=
  (strSplitlines raw).filter (fun l =>
    strLeads "#" (strStrip l) && 10 < (strStrip l).length &&
      !containsAnyS markers (strLower l))

/-- Markers excluded from the cost-optimization comment count (check 6). -/
def costMarkers : List String :=
  ["todo", "hint:", "task:", "requirements:", "implement", "---",
   "your cost analysis", "such as:", "address the findings"]

/-- Markers excluded from the cost-analysis comment count (check 7). -/
def analysisMarkers : List String :=
  ["todo", "hint:", "task:", "requirements:", "implement", "---",
   "your cost analysis", "such as:", "address the findings",
   "analyze", "propose", "explain", "describe", "consider",
   "lifecycle policies", "spot/mixed", "right-siz", "cost-sav",
   "cost_optimization.tf", "cost report"]

/-- The `.tf` files of the terraform directory: names paired with paths,
in `os.listdir` order. -/
def tfFiles (env : Env) (sub : String) : List (String × String) :=
  ((env.listDir (pj sub "terraform")).filter (fun f => strEnds ".tf" f)).map
    (fun f => (f, pj (pj sub "terraform") f))

/-- `terraform_validator.validate`. -/
def validate (env : Env) (sub : String) (quick : Bool) : List Check :=
  let tfDir := pj sub "terraform"
  if !env.isDir tfDir then
    [mkCheck "Terraform directory exists" 5 false "submission/terraform/ not found"]
  else
    let files := tfFiles env sub
    let parsed := files.map (fun fp => (fp.1, parseHclFile env fp.2))
    let parseErrors := (parsed.filter (fun p => p.2.isNone)).map (fun p => p.1)
    let allParsed := parsed.filterMap (fun p => p.2.map (fun b => (p.1, b)))
    let c1 :=
      if !env.hcl2Available then
        mkCheck "HCL parsing (python-hcl2)" 5 false
          "python-hcl2 not installed — install with: pip install python-hcl2"
      else if !parseErrors.isEmpty then
        mkCheck "HCL parsing" 5 false
          ("Parse errors in: " ++ String.intercalate ", " parseErrors)
      else
        mkCheck "HCL parsing" 5 (!files.isEmpty)
          (if files.isEmpty then "No .tf files found" else "")
    let filesWithContent :=
      (["main.tf", "networking.tf", "variables.tf"].filter (fun kf =>
        3 < (tfContentLines (readS env (pj tfDir kf))).length)).length
    let hasResourceBlocks := allParsed.any (fun p => p.2)
    let planOk := decide (2 ≤ filesWithContent) && hasResourceBlocks
    let c2 := mkCheck "Plan structure (resource blocks exist)" 5 planOk
      (if !planOk then "Missing resource blocks in Terraform files" else "")
    if quick then [c1, c2]
    else
      let allContent := files.foldl (fun acc fp => acc ++ readS env fp.2 ++ "\n") ""
      let contentLower := strLower allContent
      let hasVpc := strHas "aws_vpc" allContent
      let hasPublicSubnet := strHas "public" contentLower && strHas "aws_subnet" allContent
      let hasPrivateSubnet := strHas "private" contentLower && strHas "aws_subnet" allContent
      let hasNat := strHas "aws_nat_gateway" allContent
      let hasIgw := strHas "aws_internet_gateway" allContent
      let vpcScore : Int :=
        (if hasVpc then 1 else 0) +
        (if hasPublicSubnet && hasPrivateSubnet then 1 else 0) +
        (if hasNat then 1 else 0) + (if hasIgw then 1 else 0)
      let c3 := mkCheck "VPC: public + private subnets, NAT gateway" 4
        (decide (3 ≤ vpcScore))
        ("VPC components found: " ++ toString vpcScore ++ "/4 (VPC, subnets, NAT, IGW)")
      let sshIsOpen := files.any (fun fp => sshOpen (readS env fp.2))
      let c4 := mkCheck "Security groups: no 0.0.0.0/0 on SSH" 2 (!sshIsOpen)
        (if sshIsOpen then "SSH (port 22) is open to 0.0.0.0/0 — restrict to management CIDR"
         else "")
      let hasEksCluster := strHas "aws_eks_cluster" allContent
      let hasEksNodeGroup := strHas "aws_eks_node_group" allContent
      let hasIamRole := strHas "aws_iam_role" allContent
      let eksScore : Int :=
        (if hasEksCluster then 1 else 0) +
        (if hasEksNodeGroup && hasIamRole then 1 else 0)
      let c5 := mkCheck "EKS: cluster, IAM roles, node groups" 2 (decide (2 ≤ eksScore))
        ("EKS components: cluster=" ++ (if hasEksCluster then "yes" else "no") ++
         ", node_group=" ++ (if hasEksNodeGroup then "yes" else "no") ++
         ", iam=" ++ (if hasIamRole then "yes" else "no"))
      let costRaw := readS env (pj tfDir "cost_optimization.tf")
      let costLower := strLower (stripTfComments costRaw)
      let costItems : List (Bool × String) :=
        [(containsAnyS ["spot", "mixed_instances", "mixed instance", "on_demand_percentage"]
            costLower, "spot/mixed instances"),
         (containsAnyS ["lifecycle", "transition", "glacier", "infrequent_access",
            "intelligent_tiering"] costLower, "S3 lifecycle"),
         (containsAnyS ["rightsize", "right-size", "smaller instance", "instance_type",
            "graviton"] costLower, "rightsizing"),
         (decide (5 ≤ (costCommentLines costMarkers costRaw).length),
            "cost analysis comments")]
      let costScore : Int := ((costItems.filter (fun p => p.1)).length : Int)
      let costDetails := (costItems.filter (fun p => p.1)).map (fun p => p.2)
      let c6 := mkCheck "Cost optimization: spot, lifecycle, rightsizing" 4
        (decide (2 ≤ costScore))
        (if costDetails.isEmpty then "No cost optimization measures found"
         else "Found: " ++ String.intercalate ", " costDetails)
      let analysisComments := costCommentLines analysisMarkers costRaw
      let analysisText := strLower (strJoinNl analysisComments)
      let analysisScore : Int :=
        if 5 ≤ analysisComments.length then
          (if containsAnyS ["monthly cost", "total cost", "saving", "reduce",
              "current spend"] analysisText then 1 else 0) +
          (if containsAnyS ["$", "usd", "percent", "%", "estimated"] analysisText
           then 1 else 0) +
          (if containsAnyS ["trade-off", "tradeoff", "risk", "consideration", "impact"]
              analysisText then 1 else 0)
        else 0
      let c7 := mkCheck "Cost analysis: report review and savings proposals" 3
        (decide (2 ≤ analysisScore))
        ("Cost analysis depth: " ++ toString analysisScore ++ "/3")
      [c1, c2, c3, c4, c5, c6, c7]

end Tf

/-! ## Text normalizers (`_strip_shell_comments`, `_strip_md_template`)

The markdown-template normalizer appears verbatim in both
shell_validator.py and document_validator.py; it is defined once here. -/

namespace Norm

/-- Does the shell inline-comment pattern continue here: optional further
whitespace, then '#', then one whitespace character?  (The caller has
already consumed the first mandatory whitespace character.) -/
def seekHash : List Char → Bool
  | [] => false
  | c :: cs =>
    if c = '#' then
      match cs with
      | d :: _ => isWsC d
      | [] => false
    else isWsC c && seekHash cs

/-- Cut the line at the leftmost match of the inline shell-comment
pattern: whitespace run, '#', whitespace, rest of line. -/
def stripShellInline : List Char → List Char
  | [] => []
  | c :: cs => if isWsC c && seekHash cs then [] else c :: stripShellInline cs

/-- The per-line action of `_strip_shell_comments`: drop full-line
comments, cut inline comments. -/
def shellLineF (line : List Char) : Option (List Char) :=
  if leadsWith "#".data (pyStrip line) then none
  else some (stripShellInline line)

/-- `_strip_shell_comments` (shell_validator.py): apply the per-line
action and rejoin with newlines. -/
def stripShellComments (content : String) : String :=
  ⟨joinNl ((pySplitlines content.data).filterMap shellLineF)⟩

/-- Fuelled implementation of the non-greedy HTML-comment removal
(`re.sub` with pattern open-marker, lazy dot-all, close-marker): find
the first open marker, then the first close marker after it, delete the
span, continue after it.  Each round consumes at least seven characters,
so fuel equal to the input length is always sufficient; the fuel-zero
fallback is unreachable from the wrapper. -/
def stripHtmlF : Nat → List Char → List Char
  | 0, l => l
  | fuel + 1, l =>
    match subIdx "<!--".data l with
    | none => l
    | some i =>
      let rest := l.drop (i + 4)
      match subIdx "-->".data rest with
      | none => l
      | some j => l.take i ++ stripHtmlF fuel (rest.drop (j + 3))

/-- The HTML-comment removal pass of `_strip_md_template`. -/
def stripHtml (l : List Char) : List Char := stripHtmlF l.length l

/-- Character class of the table-separator-row pattern: whitespace,
dash or pipe. -/
def sepClass (c : Char) : Bool := isWsC c || c = '-' || c = '|'

/-- Full-match of the table-separator-row pattern on a stripped line:
a pipe, one or more class characters, a pipe. -/
def tableSepRow (st : List Char) : Bool :=
  decide (3 ≤ st.length) && decide (st.head? = some '|') &&
    decide (st.getLast? = some '|') && (st.drop 1).dropLast.all sepClass

/-- Consume n repetitions of optional whitespace followed by a pipe,
then require the end of the line. -/
def pipeWs : Nat → List Char → Bool
  | 0, l => l.isEmpty
  | n + 1, l =>
    match l.dropWhile isWsC with
    | '|' :: rest => pipeWs n rest
    | _ => false

/-- Full-match of the empty-table-row pattern: five pipes separated by
optional whitespace only. -/
def emptyTableRow (st : List Char) : Bool :=
  match st with
  | '|' :: rest => pipeWs 4 rest
  | _ => false

/-- The per-line keep condition of `_strip_md_template`. -/
def keepMdLine (line : List Char) : Bool :=
  let st := pyStrip line
  !leadsWith "#".data st && !tableSepRow st && !emptyTableRow st &&
    !decide (st = ['-'])

/-- The per-line action of `_strip_md_template` (filtering, expressed
as a filterMap for uniformity with the shell normalizer). -/
def mdLineF (line : List Char) : Option (List Char) :=
  if keepMdLine line then some line else none

/-- `_strip_md_template`: remove HTML comments, then drop heading lines,
table-separator rows, empty table rows and lone dashes. -/
def stripMdTemplate (content : String) : String :=
  ⟨joinNl ((pySplitlines (stripHtml content.data)).filterMap mdLineF)⟩

end Norm

/-! ## Shared AST helpers (stub detection) -/

/-- Statements of a function body that are neither `pass` nor a lone
string-literal expression (the list comprehension in both AST walks). -/
def realStmts (body : List PyStmt) : List PyStmt :=
  body.filter (fun s => !decide (s = .passStmt) && !decide (s = .docString))

/-- Names of functions whose body has at least one real statement
(`implemented_funcs` set of python_validator.py; a name occurs once per
implemented definition, which is equivalent for membership tests). -/
def implementedFuncs (m : PyModule) : List String :=
  (m.funcs.filter (fun f => !(realStmts f.body).isEmpty)).map (fun f => f.name)

/-- One `func_bodies[node.name] = ...` assignment of shell_validator.py:
later definitions of the same name overwrite earlier ones. -/
def funcImplStep (acc : List (String × Bool)) (f : PyFunc) : List (String × Bool) :=
  let v := !(realStmts f.body).isEmpty
  if acc.any (fun p => p.1 = f.name) then
    acc.map (fun p => if p.1 = f.name then (p.1, v) else p)
  else acc ++ [(f.name, v)]

/-- The `func_bodies` dict of shell_validator.py: name to implemented
flag. -/
def funcImplMap (fs : List PyFunc) : List (String × Bool) :=
  fs.foldl funcImplStep []

/-- `any(func_bodies.values())`. -/
def hasImplementedFuncs (m : PyModule) : Bool :=
  (funcImplMap m.funcs).any (fun p => p.2)

/-! ## shell_validator.py -/

namespace Shell

/-- Count of stripped, non-empty, non-comment lines (the inline filter
before running shellcheck in check 1). -/
def nonCommentCount (content : String) : Nat :=
  ((pySplitlines content.data).filterMap (fun l =>
    let st := pyStrip l
    if st.isEmpty then none
    else if leadsWith "#".data st then none
    else some st)).length

/-- `_has_substantial_code`: stripped lines that are non-empty, not
comments, not a lone `pass`, and do not mention todo. -/
def substantialLines (content : String) : List (List Char) :=
  (pySplitlines content.data).filterMap (fun l =>
    let st := pyStrip l
    if st.isEmpty then none
    else if leadsWith "#".data st then none
    else if decide (lowerL st = "pass".data) then none
    else if hasSub "todo".data (lowerL l) then none
    else some st)

/-- `_has_substantial_code(content, min_lines)`. -/
def hasSubstantialCode (content : String) (minLines : Nat) : Bool :=
  decide (minLines ≤ (substantialLines content).length)

/-- `_run_shellcheck`: true unless the tool ran and reported failure
(absence and timeout degrade to a pass). -/
def runShellcheck (env : Env) (p : String) : Bool :=
  match env.shellcheck p with
  | .fail => false
  | _ => true

/-- `_has_set_options`. -/
def hasSetOptions (content : String) : Bool :=
  strHas "set -e" content || strHas "set -euo pipefail" content

/-- Consume one mandatory whitespace character and any further
whitespace (the greedy whitespace-plus of the DROP-policy regex; only
the maximal munch can be followed by a non-whitespace keyword). -/
def wsPlus : List Char → Option (List Char)
  | c :: cs => if isWsC c then some (cs.dropWhile isWsC) else none
  | [] => none

/-- The input-or-forward alternation of the DROP-policy regex. -/
def altKey (l : List Char) : Option (List Char) :=
  if leadsWith "input".data l then some (l.drop 5)
  else if leadsWith "forward".data l then some (l.drop 7)
  else none

/-- Tail of both DROP-policy alternatives: whitespace, chain keyword,
whitespace, the word drop. -/
def policyTail (l : List Char) : Bool :=
  match wsPlus l with
  | some r1 =>
    match altKey r1 with
    | some r2 =>
      match wsPlus r2 with
      | some r3 => leadsWith "drop".data r3
      | none => false
    | none => false
  | none => false

/-- Does a DROP-policy alternative match at this position (on
lower-cased input, modelling the IGNORECASE flag)? -/
def dropPolicyAt (l : List Char) : Bool :=
  (leadsWith "policy".data l && policyTail (l.drop 6)) ||
  (leadsWith "-p".data l && policyTail (l.drop 2))

/-- Scan helper for the DROP-policy search. -/
def hasDropPolicyScan : List Char → Bool
  | [] => false
  | c :: cs => dropPolicyAt (c :: cs) || hasDropPolicyScan cs

/-- `re.search` for the default-DROP policy pattern, IGNORECASE. -/
def hasDropPolicy (s : String) : Bool := hasDropPolicyScan (lowerL s.data)

/-- The collected shell-script paths of the network and edge
directories, in directory-listing order. -/
def shFiles (env : Env) (sub : String) : List String :=
  (["network", "edge"].filter (fun d => env.isDir (pj sub d))).flatMap
    (fun d => ((env.listDir (pj sub d)).filter (fun f => strEnds ".sh" f)).map
      (fun f => pj (pj sub d) f))

/-- `shell_validator.validate`. -/
def validate (env : Env) (sub : String) (quick : Bool) : List Check :=
  let files := shFiles env sub
  let scResults := (files.filter (fun p => 5 ≤ nonCommentCount (readS env p))).map
    (fun p => (pyBasename p, runShellcheck env p))
  let failed := (scResults.filter (fun r => !r.2)).map (fun r => r.1)
  let c1 :=
    if scResults.length = 0 then
      mkCheck "shellcheck passes on .sh files" 2 false "No shell scripts with content found"
    else if !failed.isEmpty then
      mkCheck "shellcheck passes on .sh files" 2 false
        ("Failed: " ++ String.intercalate ", " failed)
    else mkCheck "shellcheck passes on .sh files" 2 true ""
  let cameraContent := readS env (pj (pj sub "network") "camera_discovery.py")
  let pyValid :=
    if cameraContent ≠ "" then (env.astParse cameraContent).isSome else false
  let c2 := mkCheck "Python syntax valid (camera_discovery.py)" 1 pyValid ""
  if quick then [c1, c2]
  else
    let firewallRaw := readS env (pj (pj sub "network") "firewall_rules.sh")
    let firewallContent := Norm.stripShellComments firewallRaw
    let fwLower := strLower firewallContent
    let c3 := mkCheck "Firewall: default DROP policy" 3 (hasDropPolicy firewallContent) ""
    let fwGate := hasSubstantialCode firewallRaw 8
    let fwItems : List (Bool × String) :=
      [(fwGate && (strHas "554" fwLower || strHas "rtsp" fwLower) &&
          containsAnyS ["camera", "10.50.20", "eno2"] fwLower, "RTSP from camera VLAN"),
       (fwGate && strHas "443" firewallContent &&
          containsAnyS ["output", "outbound", "established"] fwLower, "HTTPS outbound"),
       (fwGate && strHas "22" firewallContent &&
          containsAnyS ["10.50.1.", "management", "mgmt"] fwLower, "SSH from management")]
    let fwScore : Int := ((fwItems.filter (fun p => p.1)).length : Int)
    let fwDetails := (fwItems.filter (fun p => p.1)).map (fun p => p.2)
    let c4 := mkCheck "Firewall: RTSP, HTTPS, SSH, camera isolation" 3
      (decide (2 ≤ fwScore))
      (if fwDetails.isEmpty then "Missing firewall rules"
       else "Found: " ++ String.intercalate ", " fwDetails)
    let setupRaw := readS env (pj (pj sub "edge") "setup.sh")
    let setupLower := strLower (Norm.stripShellComments setupRaw)
    let setupGate := hasSubstantialCode setupRaw 10
    let setupItems : List (Bool × String) :=
      [(setupGate && containsAnyS ["apt-get install.*docker", "docker-ce",
          "install docker", "docker.io"] setupLower, "Docker"),
       (setupGate && containsAnyS ["ntp", "chrony", "timedatectl", "timesyncd"]
          setupLower, "NTP"),
       (setupGate && containsAnyS ["logrotate", "log rotation", "log-rotate",
          "maxsize", "rotate "] setupLower, "log rotation"),
       (setupGate && containsAnyS ["systemctl", "systemd", ".service", "wantedby"]
          setupLower, "systemd service"),
       (hasSetOptions setupRaw && hasSubstantialCode setupRaw 10, "error handling")]
    let setupScore : Int := ((setupItems.filter (fun p => p.1)).length : Int)
    let setupDetails := (setupItems.filter (fun p => p.1)).map (fun p => p.2)
    let c5 := mkCheck "setup.sh: Docker, NTP, log rotation, systemd, error handling" 5
      (decide (3 ≤ setupScore))
      ("Found: " ++ String.intercalate ", " setupDetails ++
       " (" ++ toString setupScore ++ "/5)")
    let camItems : List (Bool × String) :=
      match (if cameraContent ≠ "" then env.astParse cameraContent else none) with
      | none => []
      | some m =>
        if hasImplementedFuncs m then
          [(containsAnyS [".parse(", ".fromstring(", "findall(", "find(", "iter("]
              cameraContent, "XML parsing"),
           (containsAnyS ["json.dump(", "json.dumps("] cameraContent, "JSON output"),
           (containsAnyS ["timeout", "TimeoutError", "socket.timeout"] cameraContent,
              "timeout handling")]
        else []
    let camScore : Int := ((camItems.filter (fun p => p.1)).length : Int)
    let camDetails := (camItems.filter (fun p => p.1)).map (fun p => p.2)
    let c6 := mkCheck "camera_discovery.py: XML parsing, JSON output, timeout" 3
      (decide (2 ≤ camScore))
      (if camDetails.isEmpty then "Skeleton not implemented"
       else "Found: " ++ String.intercalate ", " camDetails)
    let sitePlanRaw := readS env (pj (pj sub "network") "site_plan.md")
    let sitePlan0 := strLower (Norm.stripMdTemplate sitePlanRaw)
    let siteContentLines := (strSplitlines sitePlan0).filterMap (fun l =>
      if strStrip l ≠ "" then some (strStrip l) else none)
    let sitePlan := if siteContentLines.length < 5 then "" else sitePlan0
    let vlanMatches := (env.keywords "site_plan_vlan" "keywords").countP
      (fun kw => env.rmatch kw sitePlan)
    let ipMatches := (env.keywords "site_plan_ip" "keywords").countP
      (fun kw => env.rmatch kw sitePlan)
    let siteScore : Int :=
      (if 2 ≤ vlanMatches then 1 else 0) + (if 2 ≤ ipMatches then 1 else 0)
    let c7 := mkCheck "site_plan.md: VLAN design, IP scheme, isolation" 2
      (decide (1 ≤ siteScore))
      ("VLAN keywords=" ++ toString vlanMatches ++ ", IP keywords=" ++ toString ipMatches)
    let goldenRaw := readS env (pj (pj sub "edge") "golden_image.md")
    let goldenContent := strLower (Norm.stripMdTemplate goldenRaw)
    let giMatches := (env.keywords "golden_image" "keywords").countP
      (fun kw => env.rmatch kw goldenContent)
    let c8 := mkCheck "golden_image.md: creation process, patching strategy" 1
      (decide (2 ≤ giMatches))
      ("Concept keywords matched: " ++ toString giMatches)
    [c1, c2, c3, c4, c5, c6, c7, c8]

end Shell

/-! ## python_validator.py -/

namespace Py

/-- `_has_subparsers`. -/
def hasSubparsers (content : String) : Bool :=
  strHas "add_subparsers" content || strHas "subcommand" (strLower content)

/-- Python yes/no rendering used in several details strings. -/
def yn (b : Bool) : String := if b then "yes" else "no"

/-- `python_validator.validate`.  The text of a caught `SyntaxError` is
outside the model; its details string is abbreviated to the exception
class name. -/
def validate (env : Env) (sub : String) (quick : Bool) : List Check :=
  let content := readS env (pj (pj sub "cicd") "deploy.py")
  if content = "" then
    [mkCheck "deploy.py exists" 4 false "File not found or empty"]
  else
    match env.astParse content with
    | none => [mkCheck "deploy.py: valid Python syntax" 4 false "SyntaxError"]
    | some m =>
      if quick then [mkCheck "deploy.py: valid Python syntax" 1 true ""]
      else
        let implemented := implementedFuncs m
        let argItem := m.argparseUsage &&
          (strHas "add_argument" content || strHas "add_subparsers" content)
        let rollbackB := implemented.any (fun fn => strHas "rollback" (strLower fn))
        let healthB := implemented.any (fun fn => strHas "health" (strLower fn))
        let score : Int := 1 + (if argItem then 1 else 0) +
          (if rollbackB then 1 else 0) + (if healthB then 1 else 0)
        let details := ["valid syntax"] ++
          (if argItem then
            ["argparse"] ++ (if hasSubparsers content then ["subcommands"] else [])
           else []) ++
          (if rollbackB then ["rollback function"] else []) ++
          (if healthB then ["healthcheck function"] else [])
        [⟨"deploy.py: valid Python, argparse, rollback, healthcheck", 4, score,
          decide (3 ≤ score), "Found: " ++ String.intercalate ", " details⟩]

end Py

/-! ## pipeline_validator.py -/

namespace Pipe

/-- `_strip_yaml_comments`. -/
def stripYamlComments (content : String) : String :=
  ⟨joinNl ((pySplitlines content.data).filter
    (fun l => !leadsWith "#".data (pyStrip l)))⟩

/-- The `_strip_md_template` copy local to pipeline_validator.py; unlike
the other two copies it has no empty-table-row filter. -/
def stripMdTemplateP (content : String) : String :=
  ⟨joinNl ((pySplitlines (Norm.stripHtml content.data)).filter (fun line =>
    let st := pyStrip line
    !leadsWith "#".data st && !Norm.tableSepRow st && !decide (st = ['-'])))⟩

/-- Python `str.find`: first index or -1. -/
def pyFind (pat s : String) : Int :=
  match subIdx pat.data s.data with
  | some n => (n : Int)
  | none => -1

/-- `pipeline_validator.validate`.  The text of a caught `YAMLError` is
outside the model; its details string is abbreviated. -/
def validate (env : Env) (sub : String) (quick : Bool) : List Check :=
  let cicdDir := pj sub "cicd"
  let content := readS env (pj cicdDir "pipeline.yaml")
  let c1 :=
    if strStrip content = "" then
      mkCheck "Pipeline YAML syntax" 1 false "pipeline.yaml is empty"
    else
      let nonComment := strJoinNl ((strSplitlines content).filter (fun l =>
        strStrip l ≠ "" && !strLeads "#" (strStrip l)))
      if strStrip nonComment = "" then
        mkCheck "Pipeline YAML syntax" 1 false "pipeline.yaml has no YAML content"
      else if (env.yamlLoad content).isNone then
        mkCheck "Pipeline YAML syntax" 1 false "YAML error"
      else
        mkCheck "Pipeline YAML syntax" 1
          (!yIsNull ((env.yamlLoad content).getD .null)) ""
  if quick then [c1]
  else
    let contentLower := strLower (stripYamlComments content)
    let hasBuild := strHas "build" contentLower
    let hasTest := strHas "test" contentLower
    let hasDeploy := strHas "deploy" contentLower
    let orderOk :=
      !(hasBuild && hasTest &&
        decide (pyFind "test" contentLower < pyFind "build" contentLower)) &&
      !(hasTest && hasDeploy &&
        decide (pyFind "deploy" contentLower < pyFind "test" contentLower))
    let stageScore0 : Int := (if hasBuild then 1 else 0) +
      (if hasTest then 1 else 0) + (if hasDeploy then 1 else 0)
    let stageScore := if !orderOk then max (stageScore0 - 1) 0 else stageScore0
    let c2 : Check :=
      ⟨"Build + test + deploy stages in order", 3, stageScore,
        decide (3 ≤ stageScore),
        "build=" ++ Py.yn hasBuild ++ ", test=" ++ Py.yn hasTest ++
        ", deploy=" ++ Py.yn hasDeploy ++ ", order=" ++
        (if orderOk then "correct" else "incorrect")⟩
    let ecrItems : List (Bool × String) :=
      [(containsAnyS ["ecr", "docker push", "docker build", "container registry"]
          contentLower, "ECR/container push"),
       (containsAnyS ["staging", "stage"] contentLower, "staging deploy"),
       (containsAnyS ["manual", "approval", "approve", "environment.*protection",
          "required_reviewers", "gate", "confirm"] contentLower, "manual approval gate")]
    let ecrScore : Int := ((ecrItems.filter (fun p => p.1)).length : Int)
    let ecrDetails := (ecrItems.filter (fun p => p.1)).map (fun p => p.2)
    let c3 : Check :=
      ⟨"ECR push, staging deploy, prod manual gate", 3, ecrScore,
        decide (2 ≤ ecrScore),
        if ecrDetails.isEmpty then "Missing deployment stages"
        else "Found: " ++ String.intercalate ", " ecrDetails⟩
    let hasRollback := containsAnyS ["rollback", "roll back", "undo", "revert",
      "failure", "on_failure", "if.*fail"] contentLower
    let c4 := mkCheck "Rollback/failure handling in pipeline" 1 hasRollback ""
    let monitoringContent :=
      strLower (stripMdTemplateP (readS env (pj cicdDir "monitoring_setup.md")))
    let metricsOk := 3 ≤ (env.keywords "monitoring_setup_metrics" "keywords").countP
      (fun kw => env.rmatch kw monitoringContent)
    let sloOk := 2 ≤ (env.keywords "monitoring_setup_slo" "keywords").countP
      (fun kw => env.rmatch kw monitoringContent)
    let alertMatches := (env.keywords "monitoring_setup_alerting" "keywords").countP
      (fun kw => env.rmatch kw monitoringContent)
    let escMatches := (env.keywords "monitoring_setup_escalation" "keywords").countP
      (fun kw => env.rmatch kw monitoringContent)
    let monItems : List (Bool × String) :=
      [(decide metricsOk, "metrics"), (decide sloOk, "SLOs"),
       (decide (2 ≤ alertMatches) && decide (1 ≤ escMatches), "alerting + escalation")]
    let monScore : Int := ((monItems.filter (fun p => p.1)).length : Int)
    let monDetails := (monItems.filter (fun p => p.1)).map (fun p => p.2)
    let c5 : Check :=
      ⟨"monitoring_setup.md: metrics, SLOs, alerting, escalation", 3, monScore,
        decide (2 ≤ monScore),
        if monDetails.isEmpty then "Insufficient monitoring detail"
        else "Found: " ++ String.intercalate ", " monDetails⟩
    [c1, c2, c3, c4, c5]

end Pipe

/-! ## document_validator.py -/

namespace Doc

/-- `_count_keyword_matches`. -/
def countKw (env : Env) (kws : List String) (content : String) : Nat :=
  kws.countP (fun kw => env.rmatch kw (strLower content))

/-- Does the pattern `action`, any one non-newline character, `item`
match at this position? -/
def actionItemAt (l : List Char) : Bool :=
  leadsWith "action".data l &&
    (match l.drop 6 with
     | c :: rest => c ≠ '\n' && leadsWith "item".data rest
     | [] => false)

/-- `re.search(r'action.item', s)`. -/
def hasActionDotItem : List Char → Bool
  | [] => false
  | c :: cs => actionItemAt (c :: cs) || hasActionDotItem cs

/-- `document_validator.validate`. -/
def validate (env : Env) (sub : String) (quick : Bool) : List Check :=
  let debugDir := pj sub "debug"
  let rcaContent :=
    strLower (Norm.stripMdTemplate (readS env (pj debugDir "root_cause_analysis.md")))
  let remediationContent := readS env (pj debugDir "remediation.sh")
  let postmortemRaw := readS env (pj debugDir "postmortem.md")
  let postmortemContent := strLower (Norm.stripMdTemplate postmortemRaw)
  let productContent :=
    strLower (Norm.stripMdTemplate (readS env (pj debugDir "product_recommendations.md")))
  let mtuMatches := countKw env (env.keywords "debug_rca_mtu" "keywords") rcaContent
  let c1 : Check :=
    ⟨"RCA: identifies MTU as root cause", 3, min (mtuMatches : Int) 3,
      decide (3 ≤ mtuMatches),
      "MTU-related keywords matched: " ++ toString mtuMatches⟩
  let vpnMatches := countKw env (env.keywords "debug_rca_vpn" "keywords") rcaContent
  let c2 : Check :=
    ⟨"RCA: identifies VPN tunnel + packet fragmentation", 3, min (vpnMatches : Int) 3,
      decide (3 ≤ vpnMatches),
      "VPN-related keywords matched: " ++ toString vpnMatches⟩
  let timelineMatches := countKw env (env.keywords "debug_timeline" "keywords") rcaContent
  let c3 := mkCheck "RCA: correct timeline reconstruction" 1 (decide (3 ≤ timelineMatches))
    ("Timeline keywords matched: " ++ toString timelineMatches)
  if quick then [c1, c2, c3]
  else
    let remStripped := strJoinNl ((strSplitlines remediationContent).filter (fun l =>
      strStrip l ≠ "" && !strLeads "#" (strStrip l)))
    let remLower := strLower remStripped
    let hasCode :=
      3 ≤ ((strSplitlines remStripped).filter (fun l => strStrip l ≠ "")).length
    let remItems : List (Bool × String) :=
      [(decide hasCode && strHas "mtu" remLower &&
          containsAnyS ["1500", "ip link", "ifconfig", "netplan"] remLower, "sets MTU"),
       (decide hasCode && strLeads "#!/" (strStrip remediationContent) &&
          strHas "set -e" remediationContent, "shebang + error handling"),
       (decide hasCode &&
          containsAnyS ["verify", "check", "test", "ip link show", "ping"] remLower,
          "verification step")]
    let remScore0 : Int := ((remItems.filter (fun p => p.1)).length : Int)
    let remDetails0 := (remItems.filter (fun p => p.1)).map (fun p => p.2)
    let scDeduct := 0 < remScore0 &&
      env.shellcheck (pj debugDir "remediation.sh") = SCRes.fail
    let remScore := if scDeduct then max (remScore0 - 1) 0 else remScore0
    let remDetails := remDetails0 ++ (if scDeduct then ["shellcheck warnings"] else [])
    let c4 : Check :=
      ⟨"remediation.sh: sets MTU, passes shellcheck", 3, remScore,
        decide (2 ≤ remScore),
        if remDetails.isEmpty then "Script not implemented"
        else "Found: " ++ String.intercalate ", " remDetails⟩
    let pmMatches := countKw env (env.keywords "postmortem_sections" "keywords")
      postmortemContent
    let hasActionItems := hasActionDotItem (strLower postmortemRaw).data &&
      200 < (strStrip postmortemContent).length
    let pmScore : Int := (if 4 ≤ pmMatches then 1 else 0) +
      (if hasActionItems then 1 else 0)
    let c5 : Check :=
      ⟨"postmortem.md: all sections, action items", 2, pmScore,
        decide (1 ≤ pmScore),
        "Sections matched: " ++ toString pmMatches ++ ", action items: " ++
        Py.yn hasActionItems⟩
    let monMatches := countKw env (env.keywords "monitoring_recommendations" "keywords")
      productContent
    let prodScore : Int := min (monMatches : Int) 3
    let c6 : Check :=
      ⟨"product_recommendations.md: monitoring + automated detection", 3, prodScore,
        decide (2 ≤ prodScore),
        "Monitoring/detection keywords matched: " ++ toString monMatches⟩
    [c1, c2, c3, c4, c5, c6]

end Doc

/-! ## kubernetes_validator.py

This validator's document navigation can raise `AttributeError` or
`TypeError` outside any try/except (for example `.get` on a non-mapping
container entry in check 2), so its embedding returns an `Except`: an
`.error` value models an exception propagating out of `validate`.
Navigation that the source wraps in try/except is embedded as total
functions returning the flags assigned before the caught exception. -/

namespace K8s

/-- Lookup in a parsed mapping. -/
def yLookup (kvs : List (String × YVal)) (k : String) : Option YVal :=
  (kvs.find? (fun p => decide (p.1 = k))).map (fun p => p.2)

/-- Python `v.get(k, dflt)`: `AttributeError` on non-mappings. -/
def pyGetD (v : YVal) (k : String) (dflt : YVal) : Except String YVal :=
  match v with
  | .obj kvs => .ok ((yLookup kvs k).getD dflt)
  | _ => .error "AttributeError"

/-- Python iteration over a value: lists yield elements, strings yield
one-character strings, dicts yield their keys; everything else raises
`TypeError` (total variant, for iteration sites inside try blocks). -/
def pyIterT : YVal → Option (List YVal)
  | .arr vs => some vs
  | .strV t => some (t.data.map (fun c => .strV ⟨[c]⟩))
  | .obj kvs => some (kvs.map (fun p => .strV p.1))
  | _ => none

/-- `_load_yaml`: skip unreadable files and parse failures, treat
comment-only files as having no documents, drop null documents. -/
def loadYaml (env : Env) (fpath : String) : Option (List YVal) :=
  match env.readFile fpath with
  | none => none
  | some content =>
    let stripped := strJoinNl ((strSplitlines content).filter (fun l =>
      strStrip l ≠ "" && !strLeads "#" (strStrip l)))
    if strStrip stripped = "" then none
    else match env.yamlParse content with
         | none => none
         | some docs => some (docs.filter (fun d => !yIsNull d))

/-- `_find_container_spec`: its internal try/except turns any
navigation failure into the containers collected so far. -/
def findContainerSpec (doc : YVal) : List YVal :=
  match doc with
  | .obj kvs =>
    match (yLookup kvs "spec").getD (.obj []) with
    | .obj skvs =>
      match (yLookup skvs "template").getD (.obj []) with
      | .obj tkvs =>
        match (yLookup tkvs "spec").getD (.obj []) with
        | .obj pkvs =>
          match pyIterT ((yLookup pkvs "containers").getD (.arr [])) with
          | some cs1 =>
            match pyIterT ((yLookup skvs "containers").getD (.arr [])) with
            | some cs2 => cs1 ++ cs2
            | none => cs1
          | none => []
        | _ => []
      | _ => []
    | _ => []
  | _ => []

/-- Check 2 inner loop: first container with truthy requests and limits
stops this document's loop; `.get` on a non-mapping raises. -/
def resourcesDoc : List YVal → Except String Bool
  | [] => .ok false
  | c :: rest => do
    let res ← pyGetD c "resources" (.obj [])
    let req ← pyGetD res "requests" .null
    if yTruthy req then
      let lim ← pyGetD res "limits" .null
      if yTruthy lim then .ok true else resourcesDoc rest
    else resourcesDoc rest

/-- Check 2 outer loop (every document is still visited after a hit). -/
def hasResourcesFlag : List YVal → Except String Bool
  | [] => .ok false
  | doc :: docs => do
    let found ← resourcesDoc (findContainerSpec doc)
    let rest ← hasResourcesFlag docs
    .ok (found || rest)

/-- Check 3 inner loop over containers. -/
def probesDoc (acc : Bool × Bool) : List YVal → Except String (Bool × Bool)
  | [] => .ok acc
  | c :: rest => do
    let lv ← pyGetD c "livenessProbe" .null
    let rd ← pyGetD c "readinessProbe" .null
    probesDoc (acc.1 || yTruthy lv, acc.2 || yTruthy rd) rest

/-- Check 3 outer loop. -/
def probesFlag (acc : Bool × Bool) : List YVal → Except String (Bool × Bool)
  | [] => .ok acc
  | doc :: docs => do
    let acc2 ← probesDoc acc (findContainerSpec doc)
    probesFlag acc2 docs

/-- Check 4: HPA with truthy min and max replicas; `spec.get` raises on
a non-mapping spec. -/
def hpaDoc (doc : YVal) : Except String Bool :=
  match doc with
  | .obj kvs =>
    if yEqStr ((yLookup kvs "kind").getD .null) "HorizontalPodAutoscaler" then do
      let spec := (yLookup kvs "spec").getD (.obj [])
      let mn ← pyGetD spec "minReplicas" .null
      if yTruthy mn then do
        let mx ← pyGetD spec "maxReplicas" .null
        .ok (yTruthy mx)
      else .ok false
    else .ok false
  | _ => .ok false

/-- Check 4 fold. -/
def hpaFlag : List YVal → Except String Bool
  | [] => .ok false
  | doc :: docs => do
    let b ← hpaDoc doc
    let rest ← hpaFlag docs
    .ok (b || rest)

/-- Check 5 (whole body inside try/except): per-document contribution. -/
def antiAffinityDoc (doc : YVal) : Bool :=
  match doc with
  | .obj kvs =>
    match (yLookup kvs "spec").getD (.obj []) with
    | .obj skvs =>
      match (yLookup skvs "template").getD (.obj []) with
      | .obj tkvs =>
        match (yLookup tkvs "spec").getD (.obj []) with
        | .obj pkvs =>
          match (yLookup pkvs "affinity").getD (.obj []) with
          | .obj akvs =>
            yTruthy ((yLookup akvs "podAntiAffinity").getD .null) ||
            yTruthy ((yLookup pkvs "topologySpreadConstraints").getD .null)
          | _ => false
        | _ => false
      | _ => false
    | _ => false
  | _ => false

/-- Python `x in v` for a string needle: list membership, substring for
strings, key membership for dicts, `TypeError` otherwise. -/
def pyInStr (needle : String) : YVal → Except String Bool
  | .arr vs => .ok (vs.any (fun v => yEqStr v needle))
  | .strV t => .ok (strHas needle t)
  | .obj kvs => .ok (kvs.any (fun p => decide (p.1 = needle)))
  | .null => .error "TypeError"
  | .boolV _ => .error "TypeError"
  | .intV _ => .error "TypeError"

/-- Check 6: NetworkPolicy whose policyTypes contain "Ingress". -/
def netpolDoc (doc : YVal) : Except String Bool :=
  match doc with
  | .obj kvs =>
    if yEqStr ((yLookup kvs "kind").getD .null) "NetworkPolicy" then do
      let spec := (yLookup kvs "spec").getD (.obj [])
      let pt ← pyGetD spec "policyTypes" (.arr [])
      pyInStr "Ingress" pt
    else .ok false
  | _ => .ok false

/-- Check 6 fold. -/
def netpolFlag : List YVal → Except String Bool
  | [] => .ok false
  | doc :: docs => do
    let b ← netpolDoc doc
    let rest ← netpolFlag docs
    .ok (b || rest)

/-- Check 7 container loop (inside the per-document try/except): a
failure keeps the flags accumulated so far. -/
def secContainers (acc : Bool × Bool) : List YVal → Bool × Bool
  | [] => acc
  | c :: rest =>
    match c with
    | .obj ckvs =>
      match (yLookup ckvs "securityContext").getD (.obj []) with
      | .obj sckvs =>
        secContainers
          (acc.1 || yIsTrue ((yLookup sckvs "runAsNonRoot").getD .null),
           acc.2 || yIsTrue ((yLookup sckvs "readOnlyRootFilesystem").getD .null)) rest
      | _ => acc
    | _ => acc

/-- Check 7 per-document contribution. -/
def secDoc (acc : Bool × Bool) (doc : YVal) : Bool × Bool :=
  match doc with
  | .obj kvs =>
    match (yLookup kvs "spec").getD (.obj []) with
    | .obj skvs =>
      match (yLookup skvs "template").getD (.obj []) with
      | .obj tkvs =>
        match (yLookup tkvs "spec").getD (.obj []) with
        | .obj pkvs =>
          match (yLookup pkvs "securityContext").getD (.obj []) with
          | .obj psckvs =>
            let acc1 :=
              (acc.1 || yIsTrue ((yLookup psckvs "runAsNonRoot").getD .null), acc.2)
            match pyIterT ((yLookup pkvs "containers").getD (.arr [])) with
            | some cs => secContainers acc1 cs
            | none => acc1
          | _ => acc
        | _ => acc
      | _ => acc
    | _ => acc
  | _ => acc

/-- Check 8 loop: `(has_any_image, has_latest)`; `endswith` on a truthy
non-string image raises `AttributeError`. -/
def imagesDoc (acc : Bool × Bool) : List YVal → Except String (Bool × Bool)
  | [] => .ok acc
  | c :: rest => do
    let img ← pyGetD c "image" (.strV "")
    if yTruthy img then
      match img with
      | .strV s =>
        imagesDoc (true, acc.2 || strEnds ":latest" s || !strHas ":" s) rest
      | _ => .error "AttributeError"
    else imagesDoc acc rest

/-- Check 8 fold over documents. -/
def imagesFlag (acc : Bool × Bool) : List YVal → Except String (Bool × Bool)
  | [] => .ok acc
  | doc :: docs => do
    let acc2 ← imagesDoc acc (findContainerSpec doc)
    imagesFlag acc2 docs

/-- Check 9: is some document a ConfigMap? -/
def hasConfigmapFlag (docs : List YVal) : Bool :=
  docs.any (fun d => match d with
    | .obj kvs => yEqStr ((yLookup kvs "kind").getD .null) "ConfigMap"
    | _ => false)

/-- Check 9 envFrom loop; the second component marks a caught exception
that aborts the rest of this document. -/
def cmEnvFroms (acc : Bool) : List YVal → Bool × Bool
  | [] => (acc, false)
  | e :: rest =>
    match e with
    | .obj ekvs =>
      cmEnvFroms (acc || yTruthy ((yLookup ekvs "configMapRef").getD .null)) rest
    | _ => (acc, true)

/-- Check 9 env loop. -/
def cmEnvVars (acc : Bool) : List YVal → Bool × Bool
  | [] => (acc, false)
  | e :: rest =>
    match e with
    | .obj ekvs =>
      let vf := (yLookup ekvs "valueFrom").getD (.obj [])
      if yTruthy vf then
        match vf with
        | .obj vkvs =>
          cmEnvVars (acc || yTruthy ((yLookup vkvs "configMapKeyRef").getD .null)) rest
        | _ => (acc, true)
      else cmEnvVars acc rest
    | _ => (acc, true)

/-- Check 9 container loop. -/
def cmContainers (acc : Bool) : List YVal → Bool × Bool
  | [] => (acc, false)
  | c :: rest =>
    match c with
    | .obj ckvs =>
      let r1 :=
        match pyIterT ((yLookup ckvs "envFrom").getD (.arr [])) with
        | some es => cmEnvFroms acc es
        | none => (acc, true)
      if r1.2 then r1
      else
        let r2 :=
          match pyIterT ((yLookup ckvs "env").getD (.arr [])) with
          | some es => cmEnvVars r1.1 es
          | none => (r1.1, true)
        if r2.2 then r2 else cmContainers r2.1 rest
    | _ => (acc, true)

/-- Check 9 volumes loop. -/
def cmVolumes (acc : Bool) : List YVal → Bool × Bool
  | [] => (acc, false)
  | v :: rest =>
    match v with
    | .obj vkvs => cmVolumes (acc || yTruthy ((yLookup vkvs "configMap").getD .null)) rest
    | _ => (acc, true)

/-- Check 9 per-document contribution (whole body in try/except; the
isinstance guard precedes the try). -/
def cmDoc (acc : Bool) (doc : YVal) : Bool :=
  match doc with
  | .obj kvs =>
    match (yLookup kvs "spec").getD (.obj []) with
    | .obj skvs =>
      match (yLookup skvs "template").getD (.obj []) with
      | .obj tkvs =>
        match (yLookup tkvs "spec").getD (.obj []) with
        | .obj pkvs =>
          let r1 :=
            match pyIterT ((yLookup pkvs "containers").getD (.arr [])) with
            | some cs => cmContainers acc cs
            | none => (acc, true)
          if r1.2 then r1.1
          else
            match pyIterT ((yLookup pkvs "volumes").getD (.arr [])) with
            | some vs => (cmVolumes r1.1 vs).1
            | none => r1.1
        | _ => acc
      | _ => acc
    | _ => acc
  | _ => acc

/-- All flags of the content checks, sequenced in the order in which the
source can raise (checks 2, 3, 4, 6, 8; checks 5, 7 and 9 are fully
guarded by try/except and computed totally). -/
structure Flags where
  hasRes : Bool
  hasLive : Bool
  hasReady : Bool
  hasHpa : Bool
  antiAff : Bool
  hasNetpol : Bool
  nonRoot : Bool
  roFs : Bool
  anyImage : Bool
  hasLatest : Bool
  cmRef : Bool

/-- Compute the flags, propagating the first exception in source order. -/
def computeFlags (docs : List YVal) : Except String Flags := do
  let hasRes ← hasResourcesFlag docs
  let probes ← probesFlag (false, false) docs
  let hasHpa ← hpaFlag docs
  let hasNetpol ← netpolFlag docs
  let images ← imagesFlag (false, false) docs
  let sec := docs.foldl secDoc (false, false)
  .ok ⟨hasRes, probes.1, probes.2, hasHpa, docs.any antiAffinityDoc, hasNetpol,
       sec.1, sec.2, images.1, images.2, docs.foldl cmDoc false⟩

/-- The per-scenario incident-response check (4 points each). -/
def incidentCheck (env : Env) (incidentDir : String) (n : Nat) : Check :=
  let content := strLower (readS env (pj incidentDir ("scenario_" ++ toString n ++ ".md")))
  if content = "" || (strStrip content).length < 100 then
    mkCheck ("Incident " ++ toString n ++ ": root cause + remediation") 4 false
      "Response is empty or too short"
  else
    let key := "incident_" ++ toString n
    let rcMatches := (env.keywords key "root_cause").countP (fun kw => env.rmatch kw content)
    let remMatches := (env.keywords key "remediation").countP (fun kw => env.rmatch kw content)
    let score0 : Int :=
      (if 2 ≤ rcMatches then 2 else if 1 ≤ rcMatches then 1 else 0) +
      (if 1 ≤ remMatches then min (remMatches : Int) 2 else 0)
    ⟨"Incident " ++ toString n ++ ": root cause + remediation", 4, min score0 4,
     decide (2 ≤ rcMatches) && decide (1 ≤ remMatches),
     "root_cause_keywords=" ++ toString rcMatches ++
     ", remediation_keywords=" ++ toString remMatches⟩

/-- Number of scenarios with at least one prevention keyword. -/
def preventionCount (env : Env) (incidentDir : String) : Nat :=
  (([1, 2, 3] : List Nat).filter (fun n =>
    let content := strLower (readS env (pj incidentDir ("scenario_" ++ toString n ++ ".md")))
    (env.keywords ("incident_" ++ toString n) "prevention").any
      (fun kw => env.rmatch kw content))).length

/-- YAML files of the k8s directory with their `_load_yaml` results. -/
def yamlFilesList (env : Env) (sub : String) : List (String × Option (List YVal)) :=
  ((env.listDir (pj sub "k8s")).filter
    (fun f => strEnds ".yaml" f || strEnds ".yml" f)).map
    (fun f => (f, loadYaml env (pj (pj sub "k8s") f)))

/-- Files that failed to load and have non-comment content. -/
def parseErrorNames (env : Env) (sub : String) : List String :=
  (yamlFilesList env sub).filterMap (fun p =>
    match p.2 with
    | none =>
      let content := readS env (pj (pj sub "k8s") p.1)
      if (strSplitlines content).any (fun l => strStrip l ≠ "" && !strLeads "#" (strStrip l))
      then some p.1 else none
    | some _ => none)

/-- All parsed documents across files, in listing order. -/
def allDocs (env : Env) (sub : String) : List YVal :=
  (yamlFilesList env sub).flatMap (fun p => p.2.getD [])

/-- Well-shapedness of one extracted container entry: a mapping whose
resources value (when present) is a mapping and whose image value (when
present) is a string.  Exactly what checks 2, 3 and 8 need in order not
to raise. -/
def containerSafe : YVal → Bool
  | .obj kvs =>
    (match yLookup kvs "resources" with
     | none => true
     | some (.obj _) => true
     | some _ => false) &&
    (match yLookup kvs "image" with
     | none => true
     | some (.strV _) => true
     | some _ => false)
  | _ => false

/-- Well-shapedness of one parsed document: every extracted container
entry is safe, and an HPA or NetworkPolicy document has a mapping spec
(with, for NetworkPolicy, an iterable policyTypes value).  This is a
sufficient condition for the content checks not to raise; non-mapping
documents are always safe because every unguarded access is behind an
isinstance test or the container extraction. -/
def docSafe (doc : YVal) : Bool :=
  (findContainerSpec doc).all containerSafe &&
  (match doc with
   | .obj kvs =>
     (if yEqStr ((yLookup kvs "kind").getD .null) "HorizontalPodAutoscaler" then
        match (yLookup kvs "spec").getD (.obj []) with
        | .obj _ => true
        | _ => false
      else true) &&
     (if yEqStr ((yLookup kvs "kind").getD .null) "NetworkPolicy" then
        match (yLookup kvs "spec").getD (.obj []) with
        | .obj skvs =>
          (match (yLookup skvs "policyTypes").getD (.arr []) with
           | .arr _ => true
           | .strV _ => true
           | .obj _ => true
           | _ => false)
        | _ => false
      else true)
   | _ => true)

/-- `kubernetes_validator.validate`; an `.error` result is an exception
escaping to the orchestrator.  (The source also computes an unused
`deployment` variable with an isinstance guard; it cannot raise and has
no effect, so it is omitted.) -/
def validate (env : Env) (sub : String) (quick : Bool) : Except String (List Check) :=
  let k8sDir := pj sub "k8s"
  if !env.isDir k8sDir then
    .ok [mkCheck "K8s directory exists" 3 false "submission/k8s/ not found"]
  else
    let pe := parseErrorNames env sub
    let okFiles := (yamlFilesList env sub).filterMap (fun p => p.2.map (fun d => (p.1, d)))
    let c1 :=
      if !pe.isEmpty then
        mkCheck "YAML parsing" 3 false ("Parse errors in: " ++ String.intercalate ", " pe)
      else
        mkCheck "YAML parsing" 3 (!okFiles.isEmpty)
          (if !okFiles.isEmpty then "" else "No YAML content found")
    if quick then .ok [c1]
    else
      let docs := allDocs env sub
      match computeFlags docs with
      | .error e => .error e
      | .ok fl =>
        let c2 := mkCheck "Resource requests and limits" 1 fl.hasRes ""
        let c3 := mkCheck "Liveness and readiness probes" 1 (fl.hasLive && fl.hasReady) ""
        let c4 := mkCheck "HPA with min/max replicas" 1 fl.hasHpa ""
        let c5 := mkCheck "Anti-affinity or topology spread" 1 fl.antiAff ""
        let c6 := mkCheck "NetworkPolicy restricts ingress" 1 fl.hasNetpol ""
        let secScore : Int := (if fl.nonRoot then 1 else 0) + (if fl.roFs then 1 else 0)
        let c7 := mkCheck "Security context (non-root, read-only fs)" 2
          (decide (2 ≤ secScore))
          ("non-root=" ++ Py.yn fl.nonRoot ++ ", readOnlyRootFs=" ++ Py.yn fl.roFs)
        let c8 := mkCheck "Image tag not :latest" 1 (fl.anyImage && !fl.hasLatest)
          (if fl.hasLatest then "Image uses :latest or has no tag" else "")
        let hasCm := hasConfigmapFlag docs
        let c9 := mkCheck "ConfigMap referenced from deployment" 1 (hasCm && fl.cmRef)
          ("configmap=" ++ Py.yn hasCm ++ ", referenced=" ++ Py.yn fl.cmRef)
        let incidentDir := pj k8sDir "incident_responses"
        let incidents := [incidentCheck env incidentDir 1,
          incidentCheck env incidentDir 2, incidentCheck env incidentDir 3]
        let cPrev := mkCheck "Prevention measures in incident responses" 1
          (decide (2 ≤ preventionCount env incidentDir)) ""
        .ok ([c1, c2, c3, c4, c5, c6, c7, c8, c9] ++ incidents ++ [cPrev])

end K8s

/-! ## evaluate.py (orchestrator) and scoring.py (aggregator) -/

/-- One entry of the module-to-validators mapping: the validator module's
`__name__` (used by the synthetic error check) and its validate
function.  Validators that cannot raise are wrapped in `.ok`. -/
structure Validator where
  name : String
  run : Env → String → Bool → Except String (List Check)

/-- terraform_validator. -/
def terraformV : Validator :=
  ⟨"evaluation.validators.terraform_validator", fun e s q => .ok (Tf.validate e s q)⟩

/-- kubernetes_validator (its embedding can raise). -/
def kubernetesV : Validator :=
  ⟨"evaluation.validators.kubernetes_validator", K8s.validate⟩

/-- shell_validator. -/
def shellV : Validator :=
  ⟨"evaluation.validators.shell_validator", fun e s q => .ok (Shell.validate e s q)⟩

/-- pipeline_validator. -/
def pipelineV : Validator :=
  ⟨"evaluation.validators.pipeline_validator", fun e s q => .ok (Pipe.validate e s q)⟩

/-- python_validator. -/
def pythonV : Validator :=
  ⟨"evaluation.validators.python_validator", fun e s q => .ok (Py.validate e s q)⟩

/-- document_validator. -/
def documentV : Validator :=
  ⟨"evaluation.validators.document_validator", fun e s q => .ok (Doc.validate e s q)⟩

/-- `MODULE_VALIDATORS`. -/
def MODULE_VALIDATORS : List (String × List Validator) :=
  [("terraform", [terraformV]), ("k8s", [kubernetesV]), ("network", [shellV]),
   ("cicd", [pipelineV, pythonV]), ("debug", [documentV])]

/-- The synthetic check appended when a validator invocation raises. -/
def syntheticErrorCheck (vname : String) (e : String) : Check :=
  ⟨"Validator error (" ++ vname ++ ")", 0, 0, false, e⟩

/-- The loop body of `run_module`: concatenate each validator's checks,
converting a raising validator into one synthetic error check. -/
def runValidators (vs : List Validator) (env : Env) (sub : String) (q : Bool) :
    List Check :=
  vs.flatMap (fun v =>
    match v.run env sub q with
    | .ok cs => cs
    | .error e => [syntheticErrorCheck v.name e])

/-- `run_module`. -/
def runModule (moduleName : String) (env : Env) (sub : String) (q : Bool) : List Check :=
  runValidators
    (((MODULE_VALIDATORS.find? (fun p => decide (p.1 = moduleName))).map
      (fun p => p.2)).getD []) env sub q

/-- `MODULE_CONFIG` maxima (the weights are reporting metadata with no
effect on the arithmetic and are not modelled). -/
def MODULE_CONFIG : List (String × Int) :=
  [("terraform", 25), ("k8s", 25), ("network", 20), ("cicd", 15), ("debug", 15)]

/-- `compute_module_score`. -/
def computeModuleScore (checks : List Check) : Int :=
  (checks.map (fun c => c.points_awarded)).sum

/-- `score_to_band`. -/
def scoreToBand (score : Int) : String :=
  if 80 ≤ score then "Strong Hire"
  else if 65 ≤ score then "Hire"
  else if 50 ≤ score then "Borderline"
  else "No Hire"

/-- One module's aggregate. -/
structure ModuleResult where
  score : Int
  max : Int
  checks : List Check
deriving DecidableEq

/-- The top-level result record. -/
structure EvalResult where
  total_score : Int
  max_score : Int
  band : String
  modules : List (String × ModuleResult)
deriving DecidableEq

/-- `compute_total_score`: fold the fixed module configuration,
defaulting missing modules to an empty check list. -/
def computeTotalScore (moduleResults : List (String × List Check)) : EvalResult :=
  let entries := MODULE_CONFIG.map (fun cfg =>
    let checks := ((moduleResults.find? (fun p => decide (p.1 = cfg.1))).map
      (fun p => p.2)).getD []
    (cfg.1, ModuleResult.mk (computeModuleScore checks) cfg.2 checks))
  let total := (entries.map (fun e => e.2.score)).sum
  ⟨total, (entries.map (fun e => e.2.max)).sum, scoreToBand total, entries⟩

/-- The known module names. -/
def VALID_MODULES : List String := MODULE_VALIDATORS.map (fun p => p.1)

/-- `evaluate`: `none` models the `sys.exit(1)` on a missing submission
directory; unknown requested modules are skipped with a warning. -/
def evaluate (env : Env) (sub : String) (module : Option String) (quick : Bool) :
    Option EvalResult :=
  if !env.isDir sub then none
  else
    let modulesToRun := match module with | some m => [m] | none => VALID_MODULES
    let moduleResults := (modulesToRun.filter
      (fun m => MODULE_VALIDATORS.any (fun p => decide (p.1 = m)))).map
      (fun m => (m, runModule m env sub quick))
    some (computeTotalScore moduleResults)

/-! ## Concrete environments for witnesses and counterexamples -/

/-- An existing submission directory with nothing in it: every domain
subdirectory is missing, every read fails, no external tool is
available, the keyword configuration is empty. -/
def envEmpty : Env :=
  ⟨fun p => p = "sub", fun _ => [], fun _ => none, true, fun _ => none,
   fun _ => none, fun _ => none, fun _ => none, fun _ => SCRes.notFound,
   fun _ _ => [], fun _ _ => false⟩

/-- The deploy.py and camera_discovery.py sources used by the stub
environments (contents are opaque to the model; only their parses
matter). -/
def stubPySrc : String := "def rollback_deployment():\n    pass\n"

/-- Parse result for `stubPySrc`: functions whose names match the
expected ones exactly but whose bodies are docstrings and `pass` only;
argparse is used and add_argument occurs in the raw text oracle. -/
def stubPyModule : PyModule :=
  ⟨[⟨"rollback_deployment", [.docString, .passStmt]⟩,
    ⟨"health_check", [.passStmt]⟩,
    ⟨"parse_cameras", [.docString, .passStmt, .passStmt]⟩], true⟩

/-- A submission whose cicd/deploy.py and network/camera_discovery.py
exist and parse, but contain only stub routines. -/
def envStubs : Env :=
  ⟨fun p => p = "sub" || p = "sub/cicd" || p = "sub/network",
   fun _ => [],
   fun p => if p = "sub/cicd/deploy.py" then some stubPySrc
            else if p = "sub/network/camera_discovery.py" then some stubPySrc
            else none,
   true, fun _ => none, fun _ => none, fun _ => none,
   fun s => if s = stubPySrc then some stubPyModule else none,
   fun _ => SCRes.notFound, fun _ _ => [], fun _ _ => false⟩

/-- A deploy.py whose parse fails (`SyntaxError`). -/
def envPySyn : Env :=
  ⟨fun p => p = "sub" || p = "sub/cicd", fun _ => [],
   fun p => if p = "sub/cicd/deploy.py" then some "def f(:" else none,
   true, fun _ => none, fun _ => none, fun _ => none, fun _ => none,
   fun _ => SCRes.notFound, fun _ _ => [], fun _ _ => false⟩

/-- A Kubernetes manifest whose pod spec lists a bare string as a
container entry; iterating it succeeds but `.get` on the entry raises. -/
def badK8sYaml : String := "spec:\n  containers:\n  - x"

/-- Its parse under `yaml.safe_load_all`. -/
def badK8sDocs : List YVal :=
  [.obj [("spec", .obj [("containers", .arr [.strV "x"])])]]

/-- Submission whose k8s directory holds exactly the ill-shaped
manifest above. -/
def envK8sBad : Env :=
  ⟨fun p => p = "sub" || p = "sub/k8s",
   fun p => if p = "sub/k8s" then ["a.yaml"] else [],
   fun p => if p = "sub/k8s/a.yaml" then some badK8sYaml else none,
   true, fun _ => none,
   fun s => if s = badK8sYaml then some badK8sDocs else none,
   fun _ => none, fun _ => none, fun _ => SCRes.notFound,
   fun _ _ => [], fun _ _ => false⟩

/-- A well-shaped deployment manifest (string and its parse). -/
def goodK8sYaml : String := "kind: Deployment\nspec:\n  template: ..."

/-- The single container of the well-shaped manifest. -/
def goodContainer : YVal :=
  .obj [("image", .strV "app:v1"),
        ("resources", .obj [("requests", .obj [("cpu", .strV "1")]),
                            ("limits", .obj [("cpu", .strV "2")])])]

/-- Its parse: a Deployment with one well-formed container. -/
def goodK8sDocs : List YVal :=
  [.obj [("kind", .strV "Deployment"),
         ("spec", .obj [("template", .obj [("spec",
           .obj [("containers", .arr [goodContainer])])])])]]

/-- Submission whose k8s directory holds exactly the well-shaped
manifest above. -/
def envK8sGood : Env :=
  ⟨fun p => p = "sub" || p = "sub/k8s",
   fun p => if p = "sub/k8s" then ["a.yaml"] else [],
   fun p => if p = "sub/k8s/a.yaml" then some goodK8sYaml else none,
   true, fun _ => none,
   fun s => if s = goodK8sYaml then some goodK8sDocs else none,
   fun _ => none, fun _ => none, fun _ => SCRes.notFound,
   fun _ _ => [], fun _ _ => false⟩

/-- Submission with an existing but empty terraform directory. -/
def envTfEmpty : Env :=
  ⟨fun p => p = "sub" || p = "sub/terraform",
   fun _ => [], fun _ => none, true, fun _ => none,
   fun _ => none, fun _ => none, fun _ => none, fun _ => SCRes.notFound,
   fun _ _ => [], fun _ _ => false⟩

/-- Submission with one shell script of five non-comment lines under
network/, and the shellcheck binary absent everywhere. -/
def envShellOk : Env :=
  ⟨fun p => p = "sub" || p = "sub/network",
   fun p => if p = "sub/network" then ["fw.sh"] else [],
   fun p => if p = "sub/network/fw.sh" then some "a\nb\nc\nd\ne" else none,
   true, fun _ => none, fun _ => none, fun _ => none, fun _ => none,
   fun _ => SCRes.notFound, fun _ _ => [], fun _ _ => false⟩

/-- The evaluation result of the empty submission (used as a witness). -/
def wRes : EvalResult := (evaluate envEmpty "sub" none false).getD ⟨0, 0, "", []⟩

/-! ## Helper predicates used by the claim statements -/

/-- Sum of awarded points over a check list. -/
def checksPts (cs : List Check) : Int := (cs.map (fun c => c.points_awarded)).sum

/-- Sum of point ceilings over a check list. -/
def checksMax (cs : List Check) : Int := (cs.map (fun c => c.max_points)).sum

/-- Per-check points invariant. -/
def CheckOK (c : Check) : Prop := 0 ≤ c.points_awarded ∧ c.points_awarded ≤ c.max_points

/-- One list is the other with extra checks appended (quick mode as a
prefix of full mode). -/
def ListLeads (a b : List Check) : Prop := ∃ t, a ++ t = b

/-! # Theorems

General lemmas first, then one theorem (plus witness or counterexample)
per claim. -/

/-! ## Line-splitting and joining lemmas -/

theorem splitNl_ne_nil (l : List Char) : splitNl l ≠ [] := by
  cases l with
  | nil => simp [splitNl]
  | cons c cs =>
    simp only [splitNl]
    split
    · simp
    · split <;> simp

theorem splitNl_no_nl (l : List Char) : ∀ p ∈ splitNl l, '\n' ∉ p := by
  induction l with
  | nil =>
    intro p hp
    simp only [splitNl, List.mem_singleton] at hp
    subst hp; simp
  | cons c cs ih =>
    intro p hp
    simp only [splitNl] at hp
    by_cases hc : c = '\n'
    · rw [if_pos hc] at hp
      rcases List.mem_cons.mp hp with h1 | h2
      · subst h1; simp
      · exact ih p h2
    · rw [if_neg hc] at hp
      cases hsc : splitNl cs with
      | nil => exact absurd hsc (splitNl_ne_nil cs)
      | cons q qs =>
        rw [hsc] at hp
        rcases List.mem_cons.mp hp with h1 | h2
        · subst h1
          intro hmem
          rcases List.mem_cons.mp hmem with h3 | h4
          · exact hc h3.symm
          · exact ih q (hsc ▸ List.mem_cons_self q qs) h4
        · exact ih p (hsc ▸ List.mem_cons_of_mem q h2)

theorem pySplitlines_no_nl (l : List Char) : ∀ p ∈ pySplitlines l, '\n' ∉ p := by
  intro p hp
  simp only [pySplitlines] at hp
  split at hp
  · simp at hp
  · split at hp
    · exact splitNl_no_nl l p (List.dropLast_subset _ hp)
    · exact splitNl_no_nl l p hp

theorem splitNl_cons (c : Char) (cs : List Char) :
    splitNl (c :: cs) = if c = '\n' then [] :: splitNl cs else
      match splitNl cs with
      | [] => [[c]]
      | p :: ps => (c :: p) :: ps := rfl

theorem splitNl_of_no_nl (x : List Char) (h : '\n' ∉ x) : splitNl x = [x] := by
  induction x with
  | nil => rfl
  | cons c cs ih =>
    rw [splitNl_cons,
      if_neg (fun hc => h (List.mem_cons.mpr (Or.inl hc.symm))),
      ih (fun hm => h (List.mem_cons_of_mem c hm))]

theorem splitNl_append_nl (x t : List Char) (h : '\n' ∉ x) :
    splitNl (x ++ '\n' :: t) = x :: splitNl t := by
  induction x with
  | nil => simp [splitNl]
  | cons c cs ih =>
    show splitNl (c :: (cs ++ '\n' :: t)) = (c :: cs) :: splitNl t
    rw [splitNl_cons,
      if_neg (fun hc => h (List.mem_cons.mpr (Or.inl hc.symm))),
      ih (fun hm => h (List.mem_cons_of_mem c hm))]

theorem splitNl_joinNl (ls : List (List Char)) (hne : ls ≠ [])
    (hnl : ∀ p ∈ ls, '\n' ∉ p) : splitNl (joinNl ls) = ls := by
  induction ls with
  | nil => exact absurd rfl hne
  | cons x xs ih =>
    cases xs with
    | nil =>
      show splitNl (joinNl [x]) = [x]
      exact splitNl_of_no_nl x (hnl x (List.mem_cons_self x []))
    | cons y rest =>
      show splitNl (x ++ '\n' :: joinNl (y :: rest)) = x :: y :: rest
      rw [splitNl_append_nl x _ (hnl x (List.mem_cons_self x _)),
        ih (by simp) (fun p hp => hnl p (List.mem_cons_of_mem x hp))]

theorem joinNl_ne_nil_of_last (ls : List (List Char)) (hne : ls ≠ [])
    (hlast : ls.getLast? ≠ some []) : joinNl ls ≠ [] := by
  cases ls with
  | nil => exact absurd rfl hne
  | cons x xs =>
    cases xs with
    | nil =>
      show joinNl [x] ≠ []
      intro hx
      exact hlast (by simp [joinNl] at hx; simp [hx])
    | cons y rest =>
      show x ++ '\n' :: joinNl (y :: rest) ≠ []
      simp

theorem pySplitlines_joinNl (ls : List (List Char)) (hne : ls ≠ [])
    (hnl : ∀ p ∈ ls, '\n' ∉ p) (hlast : ls.getLast? ≠ some []) :
    pySplitlines (joinNl ls) = ls := by
  unfold pySplitlines
  rw [if_neg (by simpa using joinNl_ne_nil_of_last ls hne hlast)]
  rw [splitNl_joinNl ls hne hnl]
  rw [if_neg hlast]

theorem joinNl_getLast_nl (ls : List (List Char)) (h2 : 2 ≤ ls.length)
    (hlast : ls.getLast? = some []) : (joinNl ls).getLast? = some '\n' := by
  induction ls with
  | nil => simp at h2
  | cons x xs ih =>
    cases xs with
    | nil => simp at h2
    | cons y rest =>
      show ((x ++ '\n' :: joinNl (y :: rest)).getLast? = some '\n')
      rw [List.getLast?_append_cons]
      cases rest with
      | nil =>
        have hy : y = [] := by
          rw [List.getLast?_cons_cons] at hlast
          simpa using hlast
        subst hy
        simp [joinNl]
      | cons z rest2 =>
        have hlast2 : (y :: z :: rest2).getLast? = some [] := by
          rw [List.getLast?_cons_cons] at hlast
          exact hlast
        have hrec := ih (by simp) hlast2
        cases hj : joinNl (y :: z :: rest2) with
        | nil => rw [hj] at hrec; simp at hrec
        | cons a as =>
          rw [hj] at hrec
          rw [List.getLast?_cons_cons]
          exact hrec

/-! ## Single-character pattern and strip lemmas -/

theorem leadsWith_singleton (c : Char) (r : List Char) :
    leadsWith [c] r = decide (r.head? = some c) := by
  cases r with
  | nil => simp [leadsWith]
  | cons x xs =>
    simp only [leadsWith, List.head?_cons, Option.some.injEq]
    cases hx : decide (c = x) with
    | true => simp_all [eq_comm]
    | false => simp_all [eq_comm]

theorem strEnds_nl_iff (l : List Char) :
    strEnds "\n" ⟨l⟩ = decide (l.getLast? = some '\n') := by
  show leadsWith ['\n'] l.reverse = _
  rw [leadsWith_singleton, List.head?_reverse]

theorem subIdx_none_of_not_hasSub (pat l : List Char) (h : hasSub pat l = false) :
    subIdx pat l = none := by
  induction l with
  | nil =>
    simp only [hasSub] at h
    simp [subIdx, h]
  | cons c cs ih =>
    simp only [hasSub, Bool.or_eq_false_iff] at h
    simp [subIdx, h.1, ih h.2]

theorem filterMap_id_of (F : List Char → Option (List Char)) (ls : List (List Char))
    (h : ∀ x ∈ ls, F x = some x) : ls.filterMap F = ls := by
  induction ls with
  | nil => rfl
  | cons x xs ih =>
    rw [List.filterMap_cons, h x (List.mem_cons_self x xs),
      ih (fun y hy => h y (List.mem_cons_of_mem x hy))]

theorem dropWhile_head_not (p : Char → Bool) (l : List Char) (c : Char)
    (h : (l.dropWhile p).head? = some c) : p c = false := by
  induction l with
  | nil => simp at h
  | cons x xs ih =>
    cases hx : p x with
    | true =>
      rw [List.dropWhile_cons, if_pos hx] at h
      exact ih h
    | false =>
      rw [List.dropWhile_cons, if_neg (by simp [hx])] at h
      simp only [List.head?_cons, Option.some.injEq] at h
      subst h
      exact hx

theorem dropWhile_append_singleton (p : Char → Bool) (ys : List Char) (c : Char)
    (hc : p c = false) : (ys ++ [c]).dropWhile p = (ys.dropWhile p) ++ [c] := by
  induction ys with
  | nil => simp [List.dropWhile, hc]
  | cons y ys ih =>
    cases hy : p y with
    | true =>
      rw [List.cons_append, List.dropWhile_cons, if_pos hy, ih,
        List.dropWhile_cons, if_pos hy]
    | false =>
      rw [List.cons_append, List.dropWhile_cons, if_neg (by simp [hy]),
        List.dropWhile_cons, if_neg (by simp [hy]), List.cons_append]

theorem pyStrip_head (l : List Char) :
    (pyStrip l).head? = (l.dropWhile isWsC).head? := by
  unfold pyStrip
  cases hd : l.dropWhile isWsC with
  | nil => simp
  | cons c cs =>
    have hc : isWsC c = false :=
      dropWhile_head_not isWsC l c (by rw [hd]; rfl)
    rw [show (c :: cs).reverse = cs.reverse ++ [c] by simp,
      dropWhile_append_singleton isWsC cs.reverse c hc]
    simp

/-! ## Per-line lemmas for the shell-comment normalizer -/

theorem stripShellInline_cons (c : Char) (cs : List Char) :
    Norm.stripShellInline (c :: cs) =
      if isWsC c && Norm.seekHash cs then [] else c :: Norm.stripShellInline cs := rfl

theorem stripShellInline_head (cs : List Char) :
    (Norm.stripShellInline cs).head? = none ∨
    (Norm.stripShellInline cs).head? = cs.head? := by
  cases cs with
  | nil => left; rfl
  | cons d ds =>
    rw [stripShellInline_cons]
    by_cases hg : (isWsC d && Norm.seekHash ds) = true
    · left; rw [if_pos hg]; rfl
    · right; rw [if_neg hg]; rfl

theorem seekHash_of_stripped (l : List Char)
    (h : Norm.seekHash (Norm.stripShellInline l) = true) : Norm.seekHash l = true := by
  induction l with
  | nil => exact h
  | cons c cs ih =>
    rw [stripShellInline_cons] at h
    by_cases hg : (isWsC c && Norm.seekHash cs) = true
    · rw [if_pos hg] at h
      exact absurd h (by simp [Norm.seekHash])
    · rw [if_neg hg] at h
      by_cases hc : c = '#'
      · subst hc
        simp only [Norm.seekHash] at h ⊢
        cases hs : Norm.stripShellInline cs with
        | nil => rw [hs] at h; exact absurd h (by simp)
        | cons d ds =>
          rw [hs] at h
          rcases stripShellInline_head cs with h1 | h1
          · rw [hs] at h1; simp at h1
          · rw [hs] at h1
            cases cs with
            | nil => simp at h1
            | cons e es =>
              simp only [List.head?_cons, Option.some.injEq] at h1
              subst h1
              exact h
      · have hform : Norm.seekHash (c :: Norm.stripShellInline cs) =
            (isWsC c && Norm.seekHash (Norm.stripShellInline cs)) := by
          simp only [Norm.seekHash]
          rw [if_neg hc]
        rw [hform] at h
        simp only [Bool.and_eq_true] at h
        have hrec := ih h.2
        have : Norm.seekHash (c :: cs) = (isWsC c && Norm.seekHash cs) := by
          simp only [Norm.seekHash]
          rw [if_neg hc]
        rw [this, h.1, hrec]
        rfl

theorem stripShellInline_idem (l : List Char) :
    Norm.stripShellInline (Norm.stripShellInline l) = Norm.stripShellInline l := by
  induction l with
  | nil => rfl
  | cons c cs ih =>
    rw [stripShellInline_cons]
    by_cases hg : (isWsC c && Norm.seekHash cs) = true
    · rw [if_pos hg]; rfl
    · rw [if_neg hg, stripShellInline_cons]
      have hg2 : (isWsC c && Norm.seekHash (Norm.stripShellInline cs)) ≠ true := by
        intro h2
        simp only [Bool.and_eq_true] at h2
        exact hg (by simp [h2.1, seekHash_of_stripped cs h2.2])
      rw [if_neg hg2, ih]

theorem stripShellInline_subset (l : List Char) :
    ∀ c ∈ Norm.stripShellInline l, c ∈ l := by
  induction l with
  | nil => intro c hc; exact absurd hc (by simp [Norm.stripShellInline])
  | cons x xs ih =>
    intro c hc
    rw [stripShellInline_cons] at hc
    by_cases hg : (isWsC x && Norm.seekHash xs) = true
    · rw [if_pos hg] at hc; simp at hc
    · rw [if_neg hg] at hc
      rcases List.mem_cons.mp hc with h1 | h2
      · exact List.mem_cons.mpr (Or.inl h1)
      · exact List.mem_cons_of_mem x (ih c h2)

theorem dropWhile_head_stripShellInline (l : List Char) (c : Char)
    (h : ((Norm.stripShellInline l).dropWhile isWsC).head? = some c) :
    (l.dropWhile isWsC).head? = some c := by
  induction l with
  | nil => exact h
  | cons x xs ih =>
    rw [stripShellInline_cons] at h
    by_cases hg : (isWsC x && Norm.seekHash xs) = true
    · rw [if_pos hg] at h; simp at h
    · rw [if_neg hg] at h
      cases hw : isWsC x with
      | true =>
        rw [List.dropWhile_cons, if_pos hw] at h
        rw [List.dropWhile_cons, if_pos hw]
        exact ih h
      | false =>
        rw [List.dropWhile_cons, if_neg (by simp [hw])] at h
        rw [List.dropWhile_cons, if_neg (by simp [hw])]
        exact h

/-! ## Rejoining a normalized line list is a no-op when the join does
not end in a newline and the per-line action fixes every kept line. -/

theorem rejoin_fix (F : List Char → Option (List Char)) (ks : List (List Char))
    (hnl : ∀ p ∈ ks, '\n' ∉ p)
    (hfix : ∀ x ∈ ks, F x = some x)
    (hend : (joinNl ks).getLast? ≠ some '\n') :
    joinNl ((pySplitlines (joinNl ks)).filterMap F) = joinNl ks := by
  cases ks with
  | nil => simp [joinNl, pySplitlines]
  | cons k1 krest =>
    cases krest with
    | nil =>
      cases k1 with
      | nil => simp [joinNl, pySplitlines]
      | cons a ar =>
        rw [pySplitlines_joinNl _ (by simp) hnl (by simp),
          filterMap_id_of F _ hfix]
    | cons k2 krest2 =>
      by_cases hlast : (k1 :: k2 :: krest2).getLast? = some []
      · exact absurd (joinNl_getLast_nl _ (by simp) hlast) hend
      · rw [pySplitlines_joinNl _ (by simp) hnl hlast,
          filterMap_id_of F _ hfix]

/-- HTML-comment removal is the identity when no opener occurs. -/
theorem stripHtml_of_no_open (x : List Char) (h : hasSub "<!--".data x = false) :
    Norm.stripHtml x = x := by
  unfold Norm.stripHtml
  cases hx : x.length with
  | zero => rfl
  | succ n =>
    show Norm.stripHtmlF (n + 1) x = x
    unfold Norm.stripHtmlF
    rw [subIdx_none_of_not_hasSub _ _ h]

/-- Inversion for the shell per-line action. -/
theorem shellLineF_some (line x : List Char) (h : Norm.shellLineF line = some x) :
    x = Norm.stripShellInline line := by
  unfold Norm.shellLineF at h
  split at h
  · exact absurd h (by simp)
  · simpa using h.symm

/-- Inversion for the markdown per-line action. -/
theorem mdLineF_some (line x : List Char) (h : Norm.mdLineF line = some x) :
    x = line ∧ Norm.keepMdLine line = true := by
  unfold Norm.mdLineF at h
  split at h
  · simp only [Option.some.injEq] at h
    exact ⟨h.symm, by assumption⟩
  · exact absurd h (by simp)

/-- The kept lines of one markdown-normalizer pass are fixed by a
second per-line pass. -/
theorem mdLineF_fix (x line : List Char) (h : Norm.mdLineF line = some x) :
    Norm.mdLineF x = some x := by
  obtain ⟨hx, hk⟩ := mdLineF_some line x h
  subst hx
  unfold Norm.mdLineF
  rw [if_pos hk]

/-- The kept lines of one shell-normalizer pass are fixed by a second
per-line pass. -/
theorem shellLineF_fix (x : List Char) (line : List Char)
    (hline : Norm.shellLineF line = some x) : Norm.shellLineF x = some x := by
  unfold Norm.shellLineF at hline ⊢
  by_cases hg : leadsWith "#".data (pyStrip line) = true
  · rw [if_pos hg] at hline; exact absurd hline (by simp)
  · rw [if_neg hg] at hline
    simp only [Option.some.injEq] at hline
    subst hline
    have hg2 : leadsWith "#".data (pyStrip (Norm.stripShellInline line)) ≠ true := by
      intro h2
      rw [show ("#".data : List Char) = ['#'] from rfl, leadsWith_singleton] at h2 hg
      simp only [decide_eq_true_eq] at h2
      rw [pyStrip_head] at h2
      have h3 := dropWhile_head_stripShellInline line '#' h2
      rw [← pyStrip_head] at h3
      simp [h3] at hg
    rw [if_neg hg2, stripShellInline_idem]

/-! ## C7: idempotence of the two normalizers -/

/-- C7 counterexample: the prose (markdown-template) normalizer is not
idempotent.  On this input the non-greedy HTML-comment removal splices
the leftover pieces into a new complete HTML comment, which a second
pass removes. -/
theorem C7_md_normalizer_not_idem :
    Norm.stripMdTemplate (Norm.stripMdTemplate "<!-<!--x-->--->") ≠
      Norm.stripMdTemplate "<!-<!--x-->--->" := by decide

/-- C7 (amended): both normalizers are idempotent on every input whose
normalized form does not end in a newline (re-splitting drops one
trailing empty line otherwise) and, for the prose normalizer, whose
normalized form contains no residual HTML-comment opener. -/
theorem C7_normalizers_conditionally_idem (s : String)
    (hsh : strEnds "\n" (Norm.stripShellComments s) = false)
    (hmd1 : strEnds "\n" (Norm.stripMdTemplate s) = false)
    (hmd2 : strHas "<!--" (Norm.stripMdTemplate s) = false) :
    Norm.stripShellComments (Norm.stripShellComments s) = Norm.stripShellComments s ∧
    Norm.stripMdTemplate (Norm.stripMdTemplate s) = Norm.stripMdTemplate s := by
  constructor
  · unfold Norm.stripShellComments at hsh ⊢
    rw [strEnds_nl_iff] at hsh
    refine congrArg String.mk ?_
    show joinNl ((pySplitlines
      (joinNl ((pySplitlines s.data).filterMap Norm.shellLineF))).filterMap
        Norm.shellLineF) = _
    apply rejoin_fix
    · intro p hp
      obtain ⟨line, hl, he⟩ := List.mem_filterMap.mp hp
      have hx := shellLineF_some line p he
      subst hx
      intro hmem
      exact pySplitlines_no_nl s.data line hl (stripShellInline_subset line '\n' hmem)
    · intro x hx
      obtain ⟨line, hl, he⟩ := List.mem_filterMap.mp hx
      exact shellLineF_fix x line he
    · exact of_decide_eq_false hsh
  · unfold Norm.stripMdTemplate at hmd1 hmd2 ⊢
    rw [strEnds_nl_iff] at hmd1
    refine congrArg String.mk ?_
    show joinNl ((pySplitlines (Norm.stripHtml
      (joinNl ((pySplitlines (Norm.stripHtml s.data)).filterMap
        Norm.mdLineF)))).filterMap Norm.mdLineF) = _
    rw [stripHtml_of_no_open _ hmd2]
    apply rejoin_fix
    · intro p hp
      obtain ⟨line, hl, he⟩ := List.mem_filterMap.mp hp
      obtain ⟨hx, _⟩ := mdLineF_some line p he
      rw [hx]
      exact pySplitlines_no_nl _ line hl
    · intro x hx
      obtain ⟨line, _, he⟩ := List.mem_filterMap.mp hx
      exact mdLineF_fix x line he
    · exact of_decide_eq_false hmd1

/-! ## Check-bounds machinery (claims C1 and C8) -/

theorem mkCheck_max (n : String) (m : Int) (p : Bool) (d : String) :
    (mkCheck n m p d).max_points = m := rfl

theorem mkCheck_ok (n : String) (m : Int) (p : Bool) (d : String) (hm : 0 ≤ m) :
    CheckOK (mkCheck n m p d) := by
  unfold CheckOK mkCheck
  cases p <;> simp [hm]

theorem CheckOK_ite (b : Prop) [Decidable b] (x y : Check) (hx : CheckOK x)
    (hy : CheckOK y) : CheckOK (if b then x else y) := by
  split <;> assumption

theorem checksPts_le_max (cs : List Check) (h : ∀ c ∈ cs, CheckOK c) :
    checksPts cs ≤ checksMax cs := by
  induction cs with
  | nil => simp [checksPts, checksMax]
  | cons c cs ih =>
    have h1 := h c (List.mem_cons_self c cs)
    have h2 := ih (fun x hx => h x (List.mem_cons_of_mem c hx))
    simp only [checksPts, checksMax, List.map_cons, List.sum_cons]
    exact add_le_add h1.2 h2

theorem checksPts_nonneg (cs : List Check) (h : ∀ c ∈ cs, CheckOK c) :
    0 ≤ checksPts cs := by
  induction cs with
  | nil => simp [checksPts]
  | cons c cs ih =>
    have h1 := h c (List.mem_cons_self c cs)
    have h2 := ih (fun x hx => h x (List.mem_cons_of_mem c hx))
    simp only [checksPts, List.map_cons, List.sum_cons]
    exact add_nonneg h1.1 h2

theorem checksPts_append (a b : List Check) :
    checksPts (a ++ b) = checksPts a + checksPts b := by
  simp [checksPts]

theorem itemsScore_nonneg (items : List (Bool × String)) :
    0 ≤ (((items.filter (fun p => p.1)).length : Nat) : Int) :=
  Int.natCast_nonneg _

theorem itemsScore_le (items : List (Bool × String)) :
    (((items.filter (fun p => p.1)).length : Nat) : Int) ≤ (items.length : Int) := by
  exact_mod_cast List.length_filter_le _ _

/-- C7 witness: a concrete input satisfying all three side conditions,
on which both normalizers are idempotent by the theorem. -/
theorem C7_normalizers_conditionally_idem_witness :
    strEnds "\n" (Norm.stripShellComments "code # c\ntext") = false ∧
    strEnds "\n" (Norm.stripMdTemplate "code # c\ntext") = false ∧
    strHas "<!--" (Norm.stripMdTemplate "code # c\ntext") = false ∧
    Norm.stripShellComments (Norm.stripShellComments "code # c\ntext") =
      Norm.stripShellComments "code # c\ntext" ∧
    Norm.stripMdTemplate (Norm.stripMdTemplate "code # c\ntext") =
      Norm.stripMdTemplate "code # c\ntext" :=
  ⟨by decide, by decide, by decide,
   (C7_normalizers_conditionally_idem "code # c\ntext"
     (by decide) (by decide) (by decide)).1,
   (C7_normalizers_conditionally_idem "code # c\ntext"
     (by decide) (by decide) (by decide)).2⟩

/-! ## Per-validator bounds -/

theorem max_points_ite (b : Prop) [Decidable b] (x y : Check) :
    (ite b x y).max_points = ite b x.max_points y.max_points := by
  split <;> rfl

theorem deduct_bounds (s m : Int) (b : Bool) (h0 : 0 ≤ s) (h3 : s ≤ m) :
    0 ≤ (if b then max (s - 1) 0 else s) ∧ (if b then max (s - 1) 0 else s) ≤ m := by
  constructor
  · split
    · exact le_max_right _ _
    · exact h0
  · split
    · exact max_le (by omega) (by omega)
    · exact h3

theorem tf_validate_ok (env : Env) (sub : String) (q : Bool) :
    ∀ c ∈ Tf.validate env sub q, CheckOK c := by
  intro c hc
  simp only [Tf.validate] at hc
  split at hc
  · rw [List.mem_singleton] at hc
    subst hc
    exact mkCheck_ok _ _ _ _ (by norm_num)
  · split at hc
    · simp only [List.mem_cons, List.not_mem_nil, or_false] at hc
      rcases hc with hc | hc <;> subst hc
      · split_ifs <;> exact mkCheck_ok _ _ _ _ (by norm_num)
      · exact mkCheck_ok _ _ _ _ (by norm_num)
    · simp only [List.mem_cons, List.not_mem_nil, or_false] at hc
      rcases hc with hc | hc | hc | hc | hc | hc | hc <;> subst hc
      · split_ifs <;> exact mkCheck_ok _ _ _ _ (by norm_num)
      all_goals exact mkCheck_ok _ _ _ _ (by norm_num)

theorem tf_validate_maxsum (env : Env) (sub : String) (q : Bool) :
    checksMax (Tf.validate env sub q) ≤ 25 := by
  simp only [Tf.validate]
  split
  · norm_num [checksMax, mkCheck]
  · split <;>
      simp only [checksMax, List.map_cons, List.map_nil, List.sum_cons,
        List.sum_nil, max_points_ite, mkCheck_max, ite_self] <;>
      norm_num

theorem shell_validate_ok (env : Env) (sub : String) (q : Bool) :
    ∀ c ∈ Shell.validate env sub q, CheckOK c := by
  intro c hc
  simp only [Shell.validate] at hc
  split at hc
  · simp only [List.mem_cons, List.not_mem_nil, or_false] at hc
    rcases hc with hc | hc <;> subst hc
    · split_ifs <;> exact mkCheck_ok _ _ _ _ (by norm_num)
    · exact mkCheck_ok _ _ _ _ (by norm_num)
  · simp only [List.mem_cons, List.not_mem_nil, or_false] at hc
    rcases hc with hc | hc | hc | hc | hc | hc | hc | hc <;> subst hc
    · split_ifs <;> exact mkCheck_ok _ _ _ _ (by norm_num)
    all_goals exact mkCheck_ok _ _ _ _ (by norm_num)

theorem shell_validate_maxsum (env : Env) (sub : String) (q : Bool) :
    checksMax (Shell.validate env sub q) ≤ 20 := by
  simp only [Shell.validate]
  split <;>
    simp only [checksMax, List.map_cons, List.map_nil, List.sum_cons,
      List.sum_nil, max_points_ite, mkCheck_max, ite_self] <;>
    norm_num

theorem filter3_len_bounds (b1 b2 b3 : Bool) (s1 s2 s3 : String) :
    0 ≤ ((([(b1, s1), (b2, s2), (b3, s3)] : List (Bool × String)).filter
      (fun p => p.1)).length : Int) ∧
    ((([(b1, s1), (b2, s2), (b3, s3)] : List (Bool × String)).filter
      (fun p => p.1)).length : Int) ≤ 3 := by
  cases b1 <;> cases b2 <;> cases b3 <;> simp [List.filter]

theorem py_validate_ok (env : Env) (sub : String) (q : Bool) :
    ∀ c ∈ Py.validate env sub q, CheckOK c := by
  intro c hc
  simp only [Py.validate] at hc
  split at hc
  · rw [List.mem_singleton] at hc
    subst hc
    exact mkCheck_ok _ _ _ _ (by norm_num)
  · split at hc
    · rw [List.mem_singleton] at hc
      subst hc
      exact mkCheck_ok _ _ _ _ (by norm_num)
    · split at hc
      · rw [List.mem_singleton] at hc
        subst hc
        exact mkCheck_ok _ _ _ _ (by norm_num)
      · rw [List.mem_singleton] at hc
        subst hc
        constructor <;> split_ifs <;> norm_num

theorem py_validate_maxsum (env : Env) (sub : String) (q : Bool) :
    checksMax (Py.validate env sub q) ≤ 4 := by
  simp only [Py.validate]
  split
  · norm_num [checksMax, mkCheck]
  · split
    · norm_num [checksMax, mkCheck]
    · split <;> norm_num [checksMax, mkCheck]

theorem pipe_validate_ok (env : Env) (sub : String) (q : Bool) :
    ∀ c ∈ Pipe.validate env sub q, CheckOK c := by
  intro c hc
  simp only [Pipe.validate] at hc
  split at hc
  · rw [List.mem_singleton] at hc
    subst hc
    split_ifs <;> exact mkCheck_ok _ _ _ _ (by norm_num)
  · simp only [List.mem_cons, List.not_mem_nil, or_false] at hc
    rcases hc with hc | hc | hc | hc | hc <;> subst hc
    · split_ifs <;> exact mkCheck_ok _ _ _ _ (by norm_num)
    · exact deduct_bounds _ 3 _ (by split_ifs <;> norm_num) (by split_ifs <;> norm_num)
    · exact ⟨(filter3_len_bounds _ _ _ _ _ _).1, (filter3_len_bounds _ _ _ _ _ _).2⟩
    · exact mkCheck_ok _ _ _ _ (by norm_num)
    · exact ⟨(filter3_len_bounds _ _ _ _ _ _).1, (filter3_len_bounds _ _ _ _ _ _).2⟩

theorem pipe_validate_maxsum (env : Env) (sub : String) (q : Bool) :
    checksMax (Pipe.validate env sub q) ≤ 11 := by
  simp only [Pipe.validate]
  split <;>
    simp only [checksMax, List.map_cons, List.map_nil, List.sum_cons,
      List.sum_nil, max_points_ite, mkCheck_max, ite_self] <;>
    norm_num

theorem minCast_bounds (n : Nat) (m : Int) (hm : 0 ≤ m) :
    0 ≤ min ((n : Nat) : Int) m ∧ min ((n : Nat) : Int) m ≤ m := by omega

theorem doc_validate_ok (env : Env) (sub : String) (q : Bool) :
    ∀ c ∈ Doc.validate env sub q, CheckOK c := by
  intro c hc
  simp only [Doc.validate] at hc
  split at hc
  · simp only [List.mem_cons, List.not_mem_nil, or_false] at hc
    rcases hc with hc | hc | hc <;> subst hc
    · exact minCast_bounds _ 3 (by norm_num)
    · exact minCast_bounds _ 3 (by norm_num)
    · exact mkCheck_ok _ _ _ _ (by norm_num)
  · simp only [List.mem_cons, List.not_mem_nil, or_false] at hc
    rcases hc with hc | hc | hc | hc | hc | hc <;> subst hc
    · exact minCast_bounds _ 3 (by norm_num)
    · exact minCast_bounds _ 3 (by norm_num)
    · exact mkCheck_ok _ _ _ _ (by norm_num)
    · exact deduct_bounds _ 3 _ (filter3_len_bounds _ _ _ _ _ _).1
        (filter3_len_bounds _ _ _ _ _ _).2
    · constructor <;> split_ifs <;> norm_num
    · exact minCast_bounds _ 3 (by norm_num)

theorem doc_validate_maxsum (env : Env) (sub : String) (q : Bool) :
    checksMax (Doc.validate env sub q) ≤ 15 := by
  simp only [Doc.validate]
  split <;>
    simp only [checksMax, List.map_cons, List.map_nil, List.sum_cons,
      List.sum_nil, max_points_ite, mkCheck_max, ite_self] <;>
    norm_num

theorem incidentCheck_ok (env : Env) (dir : String) (n : Nat) :
    CheckOK (K8s.incidentCheck env dir n) := by
  simp only [K8s.incidentCheck]
  split
  · exact mkCheck_ok _ _ _ _ (by norm_num)
  · unfold CheckOK
    dsimp only
    constructor <;> split_ifs <;> omega

theorem incidentCheck_max (env : Env) (dir : String) (n : Nat) :
    (K8s.incidentCheck env dir n).max_points = 4 := by
  simp only [K8s.incidentCheck]
  split <;> rfl

theorem k8s_validate_ok (env : Env) (sub : String) (q : Bool) (cs : List Check)
    (h : K8s.validate env sub q = Except.ok cs) : ∀ c ∈ cs, CheckOK c := by
  intro c hc
  simp only [K8s.validate] at h
  split at h
  · simp only [Except.ok.injEq] at h
    subst h
    rw [List.mem_singleton] at hc
    subst hc
    exact mkCheck_ok _ _ _ _ (by norm_num)
  · split at h
    · simp only [Except.ok.injEq] at h
      subst h
      rw [List.mem_singleton] at hc
      subst hc
      split_ifs <;> exact mkCheck_ok _ _ _ _ (by norm_num)
    · split at h
      · exact absurd h (by simp)
      · simp only [Except.ok.injEq] at h
        subst h
        simp only [List.cons_append, List.nil_append, List.mem_cons,
          List.not_mem_nil, or_false] at hc
        rcases hc with hc | hc | hc | hc | hc | hc | hc | hc | hc | hc | hc | hc | hc <;>
          subst hc
        · split_ifs <;> exact mkCheck_ok _ _ _ _ (by norm_num)
        · exact mkCheck_ok _ _ _ _ (by norm_num)
        · exact mkCheck_ok _ _ _ _ (by norm_num)
        · exact mkCheck_ok _ _ _ _ (by norm_num)
        · exact mkCheck_ok _ _ _ _ (by norm_num)
        · exact mkCheck_ok _ _ _ _ (by norm_num)
        · exact mkCheck_ok _ _ _ _ (by norm_num)
        · exact mkCheck_ok _ _ _ _ (by norm_num)
        · exact mkCheck_ok _ _ _ _ (by norm_num)
        · exact incidentCheck_ok env _ 1
        · exact incidentCheck_ok env _ 2
        · exact incidentCheck_ok env _ 3
        · exact mkCheck_ok _ _ _ _ (by norm_num)

theorem k8s_validate_maxsum (env : Env) (sub : String) (q : Bool) (cs : List Check)
    (h : K8s.validate env sub q = Except.ok cs) : checksMax cs ≤ 25 := by
  simp only [K8s.validate] at h
  split at h
  · simp only [Except.ok.injEq] at h
    subst h
    norm_num [checksMax, mkCheck]
  · split at h
    · simp only [Except.ok.injEq] at h
      subst h
      simp only [checksMax, List.map_cons, List.map_nil, List.sum_cons,
        List.sum_nil, max_points_ite, mkCheck_max, ite_self]
      norm_num
    · split at h
      · exact absurd h (by simp)
      · simp only [Except.ok.injEq] at h
        subst h
        simp only [checksMax, List.cons_append, List.nil_append, List.map_cons,
          List.map_nil, List.sum_cons, List.sum_nil, max_points_ite,
          mkCheck_max, ite_self, incidentCheck_max]
        norm_num

/-! ## Orchestrator-level bounds -/

theorem runModule_terraform (env : Env) (sub : String) (q : Bool) :
    runModule "terraform" env sub q = Tf.validate env sub q := by
  show runValidators [terraformV] env sub q = _
  simp [runValidators, terraformV]

theorem runModule_k8s (env : Env) (sub : String) (q : Bool) :
    runModule "k8s" env sub q =
      (match K8s.validate env sub q with
       | .ok cs => cs
       | .error e => [syntheticErrorCheck kubernetesV.name e]) := by
  show runValidators [kubernetesV] env sub q = _
  simp only [runValidators, List.flatMap_cons, List.flatMap_nil, List.append_nil]
  rfl

theorem runModule_network (env : Env) (sub : String) (q : Bool) :
    runModule "network" env sub q = Shell.validate env sub q := by
  show runValidators [shellV] env sub q = _
  simp [runValidators, shellV]

theorem runModule_cicd (env : Env) (sub : String) (q : Bool) :
    runModule "cicd" env sub q = Pipe.validate env sub q ++ Py.validate env sub q := by
  show runValidators [pipelineV, pythonV] env sub q = _
  simp [runValidators, pipelineV, pythonV]

theorem runModule_debug (env : Env) (sub : String) (q : Bool) :
    runModule "debug" env sub q = Doc.validate env sub q := by
  show runValidators [documentV] env sub q = _
  simp [runValidators, documentV]

theorem runModule_bounds (env : Env) (sub : String) (q : Bool) :
    ∀ cfg ∈ MODULE_CONFIG, 0 ≤ checksPts (runModule cfg.1 env sub q) ∧
      checksPts (runModule cfg.1 env sub q) ≤ cfg.2 := by
  intro cfg hcfg
  have hok : ∀ cs : List Check, (∀ c ∈ cs, CheckOK c) → checksMax cs ≤ cfg.2 →
      0 ≤ checksPts cs ∧ checksPts cs ≤ cfg.2 := fun cs h1 h2 =>
    ⟨checksPts_nonneg cs h1, le_trans (checksPts_le_max cs h1) h2⟩
  fin_cases hcfg
  · rw [runModule_terraform]
    exact hok _ (tf_validate_ok env sub q) (tf_validate_maxsum env sub q)
  · rw [runModule_k8s]
    cases hk : K8s.validate env sub q with
    | ok cs =>
      exact hok _ (k8s_validate_ok env sub q cs hk) (k8s_validate_maxsum env sub q cs hk)
    | error e =>
      constructor <;> simp [checksPts, syntheticErrorCheck]
  · rw [runModule_network]
    exact hok _ (shell_validate_ok env sub q) (shell_validate_maxsum env sub q)
  · rw [runModule_cicd]
    have h1 := checksPts_nonneg _ (pipe_validate_ok env sub q)
    have h2 := checksPts_nonneg _ (py_validate_ok env sub q)
    have h3 := le_trans (checksPts_le_max _ (pipe_validate_ok env sub q))
      (pipe_validate_maxsum env sub q)
    have h4 := le_trans (checksPts_le_max _ (py_validate_ok env sub q))
      (py_validate_maxsum env sub q)
    rw [checksPts_append]
    refine ⟨add_nonneg h1 h2, ?_⟩
    omega
  · rw [runModule_debug]
    exact hok _ (doc_validate_ok env sub q) (doc_validate_maxsum env sub q)

theorem sum_map_bounds (l : List (String × Int)) (f g : (String × Int) → Int)
    (h : ∀ a ∈ l, 0 ≤ f a ∧ f a ≤ g a) :
    0 ≤ (l.map f).sum ∧ (l.map f).sum ≤ (l.map g).sum := by
  induction l with
  | nil => simp
  | cons a as ih =>
    have h1 := h a (List.mem_cons_self a as)
    have h2 := ih (fun x hx => h x (List.mem_cons_of_mem a hx))
    simp only [List.map_cons, List.sum_cons]
    exact ⟨add_nonneg h1.1 h2.1, add_le_add h1.2 h2.2⟩

theorem computeTotalScore_bounds (env : Env) (sub : String) (q : Bool)
    (mrs : List (String × List Check))
    (hm : ∀ pr ∈ mrs, pr.2 = runModule pr.1 env sub q) :
    (computeTotalScore mrs).max_score = 100 ∧
    0 ≤ (computeTotalScore mrs).total_score ∧
    (computeTotalScore mrs).total_score ≤ (computeTotalScore mrs).max_score := by
  have hcfg : ∀ cfg ∈ MODULE_CONFIG,
      0 ≤ computeModuleScore (((mrs.find? (fun p => decide (p.1 = cfg.1))).map
        (fun p => p.2)).getD []) ∧
      computeModuleScore (((mrs.find? (fun p => decide (p.1 = cfg.1))).map
        (fun p => p.2)).getD []) ≤ cfg.2 := by
    intro cfg hc
    cases hf : mrs.find? (fun p => decide (p.1 = cfg.1)) with
    | none =>
      have h2 : (0:Int) ≤ cfg.2 := by fin_cases hc <;> norm_num
      simp [computeModuleScore, h2]
    | some pr =>
      have hmem := List.mem_of_find?_eq_some hf
      have hp := List.find?_some hf
      simp only [decide_eq_true_eq] at hp
      have heq := hm pr hmem
      simp only [Option.map_some', Option.getD_some]
      rw [heq, hp]
      exact runModule_bounds env sub q cfg hc
  simp only [computeTotalScore, List.map_map, Function.comp_def]
  refine ⟨?_, ?_, ?_⟩
  · decide
  · exact (sum_map_bounds MODULE_CONFIG _ (fun cfg => cfg.2) hcfg).1
  · exact (sum_map_bounds MODULE_CONFIG _ (fun cfg => cfg.2) hcfg).2

/-! ## C1: total and maximum score bounds -/

/-- C1: every evaluation run (any submission directory, module subset
and mode) returns a result with max_score equal to the fixed 100 (the
sum of the configured module maxima) and 0 ≤ total_score ≤ max_score. -/
theorem C1_eval_result_bounds (env : Env) (sub : String) (module : Option String)
    (q : Bool) (r : EvalResult) (h : evaluate env sub module q = some r) :
    r.max_score = 100 ∧ 0 ≤ r.total_score ∧ r.total_score ≤ r.max_score := by
  simp only [evaluate] at h
  split at h
  · exact absurd h (by simp)
  · simp only [Option.some.injEq] at h
    subst h
    apply computeTotalScore_bounds env sub q
    intro pr hpr
    simp only [List.mem_map] at hpr
    obtain ⟨m, _, heq⟩ := hpr
    subst heq
    rfl

/-- C1 witness: the result of evaluating a concrete empty submission
satisfies the bounds by the theorem. -/
theorem C1_eval_result_bounds_witness :
    wRes.max_score = 100 ∧ 0 ≤ wRes.total_score ∧ wRes.total_score ≤ wRes.max_score :=
  C1_eval_result_bounds envEmpty "sub" none false wRes (by decide)

/-! ## C8: per-check point bounds -/

/-- C8 (amended): every Check produced by any validator satisfies
0 ≤ points_awarded ≤ max_points (for the kubernetes validator, on
every non-raising run). -/
theorem C8_points_within_bounds (env : Env) (sub : String) (q : Bool) :
    (∀ c ∈ Tf.validate env sub q, CheckOK c) ∧
    (∀ c ∈ Shell.validate env sub q, CheckOK c) ∧
    (∀ c ∈ Py.validate env sub q, CheckOK c) ∧
    (∀ c ∈ Pipe.validate env sub q, CheckOK c) ∧
    (∀ c ∈ Doc.validate env sub q, CheckOK c) ∧
    (∀ cs, K8s.validate env sub q = Except.ok cs → ∀ c ∈ cs, CheckOK c) :=
  ⟨tf_validate_ok env sub q, shell_validate_ok env sub q, py_validate_ok env sub q,
   pipe_validate_ok env sub q, doc_validate_ok env sub q,
   fun cs h => k8s_validate_ok env sub q cs h⟩

/-- C8 witness: the bound holds at a concrete check of a concrete run. -/
theorem C8_points_within_bounds_witness :
    CheckOK (mkCheck "Terraform directory exists" 5 false
      "submission/terraform/ not found") :=
  (C8_points_within_bounds envEmpty "sub" false).1 _ (by decide)

/-- C8 counterexample: max_points is not fixed per check — the check
named "deploy.py: valid Python syntax" carries ceiling 4 when the file
has a syntax error but ceiling 1 in quick mode on a valid file. -/
theorem C8_max_points_not_fixed :
    (Py.validate envPySyn "sub" false).map (fun c => (c.name, c.max_points)) =
      [("deploy.py: valid Python syntax", 4)] ∧
    (Py.validate envStubs "sub" true).map (fun c => (c.name, c.max_points)) =
      [("deploy.py: valid Python syntax", 1)] := by
  exact ⟨by decide, by decide⟩

/-! ## C3: exception safety of the validators -/

theorem containerSafe_obj (c : YVal) (h : K8s.containerSafe c = true) :
    ∃ kvs, c = YVal.obj kvs := by
  cases c <;> simp [K8s.containerSafe] at h ⊢

theorem resourcesDoc_ok (cs : List YVal) (h : ∀ c ∈ cs, K8s.containerSafe c = true) :
    ∃ b, K8s.resourcesDoc cs = Except.ok b := by
  induction cs with
  | nil => exact ⟨false, rfl⟩
  | cons c rest ih =>
    have hc := h c (List.mem_cons_self c rest)
    obtain ⟨b0, ihe⟩ := ih (fun x hx => h x (List.mem_cons_of_mem c hx))
    obtain ⟨kvs, hk⟩ := containerSafe_obj c hc
    subst hk
    simp only [K8s.containerSafe, Bool.and_eq_true] at hc
    have hres : ∃ rkvs, (K8s.yLookup kvs "resources").getD (.obj []) = YVal.obj rkvs := by
      cases hl : K8s.yLookup kvs "resources" with
      | none => exact ⟨[], by simp [hl]⟩
      | some v =>
        have hc1 := hc.1
        rw [hl] at hc1
        cases v <;> simp_all
    obtain ⟨rkvs, hres⟩ := hres
    have h1 : K8s.pyGetD (.obj kvs) "resources" (.obj []) = Except.ok (.obj rkvs) := by
      simp [K8s.pyGetD, hres]
    have h2 : K8s.pyGetD (.obj rkvs) "requests" .null =
        Except.ok ((K8s.yLookup rkvs "requests").getD .null) := by simp [K8s.pyGetD]
    have h3 : K8s.pyGetD (.obj rkvs) "limits" .null =
        Except.ok ((K8s.yLookup rkvs "limits").getD .null) := by simp [K8s.pyGetD]
    simp only [K8s.resourcesDoc, h1, bind, Except.bind, h2]
    split
    · simp only [h3]
      split
      · exact ⟨true, rfl⟩
      · exact ⟨b0, ihe⟩
    · exact ⟨b0, ihe⟩

theorem docSafe_containers (d : YVal) (h : K8s.docSafe d = true) :
    ∀ c ∈ K8s.findContainerSpec d, K8s.containerSafe c = true := by
  simp only [K8s.docSafe, Bool.and_eq_true, List.all_eq_true] at h
  exact fun c hc => h.1 c hc

theorem hasResourcesFlag_ok (docs : List YVal)
    (h : ∀ d ∈ docs, K8s.docSafe d = true) :
    ∃ b, K8s.hasResourcesFlag docs = Except.ok b := by
  induction docs with
  | nil => exact ⟨false, rfl⟩
  | cons d rest ih =>
    obtain ⟨b1, h1⟩ := resourcesDoc_ok (K8s.findContainerSpec d)
      (docSafe_containers d (h d (List.mem_cons_self d rest)))
    obtain ⟨b2, h2⟩ := ih (fun x hx => h x (List.mem_cons_of_mem d hx))
    exact ⟨b1 || b2, by simp only [K8s.hasResourcesFlag, h1, h2, bind, Except.bind]⟩

theorem probesDoc_ok (cs : List YVal) (acc : Bool × Bool)
    (h : ∀ c ∈ cs, K8s.containerSafe c = true) :
    ∃ p, K8s.probesDoc acc cs = Except.ok p := by
  induction cs generalizing acc with
  | nil => exact ⟨acc, rfl⟩
  | cons c rest ih =>
    obtain ⟨kvs, hk⟩ := containerSafe_obj c (h c (List.mem_cons_self c rest))
    subst hk
    have h1 : K8s.pyGetD (.obj kvs) "livenessProbe" .null =
        Except.ok ((K8s.yLookup kvs "livenessProbe").getD .null) := by simp [K8s.pyGetD]
    have h2 : K8s.pyGetD (.obj kvs) "readinessProbe" .null =
        Except.ok ((K8s.yLookup kvs "readinessProbe").getD .null) := by simp [K8s.pyGetD]
    obtain ⟨p, hp⟩ := ih
      (acc.1 || yTruthy ((K8s.yLookup kvs "livenessProbe").getD .null),
       acc.2 || yTruthy ((K8s.yLookup kvs "readinessProbe").getD .null))
      (fun x hx => h x (List.mem_cons_of_mem _ hx))
    exact ⟨p, by simp only [K8s.probesDoc, h1, h2, bind, Except.bind, hp]⟩

theorem probesFlag_ok (docs : List YVal) (acc : Bool × Bool)
    (h : ∀ d ∈ docs, K8s.docSafe d = true) :
    ∃ p, K8s.probesFlag acc docs = Except.ok p := by
  induction docs generalizing acc with
  | nil => exact ⟨acc, rfl⟩
  | cons d rest ih =>
    obtain ⟨p1, h1⟩ := probesDoc_ok (K8s.findContainerSpec d) acc
      (docSafe_containers d (h d (List.mem_cons_self d rest)))
    obtain ⟨p2, h2⟩ := ih p1 (fun x hx => h x (List.mem_cons_of_mem d hx))
    exact ⟨p2, by simp only [K8s.probesFlag, h1, h2, bind, Except.bind]⟩

theorem hpaDoc_ok (d : YVal) (h : K8s.docSafe d = true) :
    ∃ b, K8s.hpaDoc d = Except.ok b := by
  cases d with
  | obj kvs =>
    simp only [K8s.docSafe, Bool.and_eq_true] at h
    by_cases hkind :
        yEqStr ((K8s.yLookup kvs "kind").getD .null) "HorizontalPodAutoscaler" = true
    · have hspec := h.2.1
      rw [if_pos hkind] at hspec
      obtain ⟨skvs, hs⟩ : ∃ skvs,
          (K8s.yLookup kvs "spec").getD (.obj []) = YVal.obj skvs := by
        cases hsp : (K8s.yLookup kvs "spec").getD (.obj []) <;>
          rw [hsp] at hspec <;> simp_all
      have h1 : K8s.pyGetD ((K8s.yLookup kvs "spec").getD (.obj [])) "minReplicas" .null =
          Except.ok ((K8s.yLookup skvs "minReplicas").getD .null) := by
        rw [hs]; simp [K8s.pyGetD]
      have h2 : K8s.pyGetD ((K8s.yLookup kvs "spec").getD (.obj [])) "maxReplicas" .null =
          Except.ok ((K8s.yLookup skvs "maxReplicas").getD .null) := by
        rw [hs]; simp [K8s.pyGetD]
      simp only [K8s.hpaDoc, hkind, if_true, h1, h2, bind, Except.bind]
      split
      · exact ⟨_, rfl⟩
      · exact ⟨false, rfl⟩
    · simp only [K8s.hpaDoc]
      rw [if_neg hkind]
      exact ⟨false, rfl⟩
  | null => exact ⟨false, rfl⟩
  | boolV b => exact ⟨false, rfl⟩
  | intV n => exact ⟨false, rfl⟩
  | strV s => exact ⟨false, rfl⟩
  | arr vs => exact ⟨false, rfl⟩

theorem hpaFlag_ok (docs : List YVal) (h : ∀ d ∈ docs, K8s.docSafe d = true) :
    ∃ b, K8s.hpaFlag docs = Except.ok b := by
  induction docs with
  | nil => exact ⟨false, rfl⟩
  | cons d rest ih =>
    obtain ⟨b1, h1⟩ := hpaDoc_ok d (h d (List.mem_cons_self d rest))
    obtain ⟨b2, h2⟩ := ih (fun x hx => h x (List.mem_cons_of_mem d hx))
    exact ⟨b1 || b2, by simp only [K8s.hpaFlag, h1, h2, bind, Except.bind]⟩

theorem netpolDoc_ok (d : YVal) (h : K8s.docSafe d = true) :
    ∃ b, K8s.netpolDoc d = Except.ok b := by
  cases d with
  | obj kvs =>
    simp only [K8s.docSafe, Bool.and_eq_true] at h
    by_cases hkind : yEqStr ((K8s.yLookup kvs "kind").getD .null) "NetworkPolicy" = true
    · have hspec := h.2.2
      rw [if_pos hkind] at hspec
      obtain ⟨skvs, hs⟩ : ∃ skvs,
          (K8s.yLookup kvs "spec").getD (.obj []) = YVal.obj skvs := by
        cases hsp : (K8s.yLookup kvs "spec").getD (.obj []) <;>
          rw [hsp] at hspec <;> simp_all
      rw [hs] at hspec
      have h1 : K8s.pyGetD ((K8s.yLookup kvs "spec").getD (.obj [])) "policyTypes"
          (.arr []) = Except.ok ((K8s.yLookup skvs "policyTypes").getD (.arr [])) := by
        rw [hs]; simp [K8s.pyGetD]
      have hspec2 : (match (K8s.yLookup skvs "policyTypes").getD (YVal.arr []) with
          | YVal.arr _ => true
          | YVal.strV _ => true
          | YVal.obj _ => true
          | _ => false) = true := hspec
      have h2 : ∃ b, K8s.pyInStr "Ingress"
          ((K8s.yLookup skvs "policyTypes").getD (.arr [])) = Except.ok b := by
        cases hpt : (K8s.yLookup skvs "policyTypes").getD (.arr []) <;>
          rw [hpt] at hspec2 <;> simp_all [K8s.pyInStr]
      obtain ⟨b, hb⟩ := h2
      exact ⟨b, by simp only [K8s.netpolDoc, hkind, if_true, h1, bind, Except.bind, hb]⟩
    · simp only [K8s.netpolDoc]
      rw [if_neg hkind]
      exact ⟨false, rfl⟩
  | null => exact ⟨false, rfl⟩
  | boolV b => exact ⟨false, rfl⟩
  | intV n => exact ⟨false, rfl⟩
  | strV s => exact ⟨false, rfl⟩
  | arr vs => exact ⟨false, rfl⟩

theorem netpolFlag_ok (docs : List YVal) (h : ∀ d ∈ docs, K8s.docSafe d = true) :
    ∃ b, K8s.netpolFlag docs = Except.ok b := by
  induction docs with
  | nil => exact ⟨false, rfl⟩
  | cons d rest ih =>
    obtain ⟨b1, h1⟩ := netpolDoc_ok d (h d (List.mem_cons_self d rest))
    obtain ⟨b2, h2⟩ := ih (fun x hx => h x (List.mem_cons_of_mem d hx))
    exact ⟨b1 || b2, by simp only [K8s.netpolFlag, h1, h2, bind, Except.bind]⟩

theorem imagesDoc_ok (cs : List YVal) (acc : Bool × Bool)
    (h : ∀ c ∈ cs, K8s.containerSafe c = true) :
    ∃ p, K8s.imagesDoc acc cs = Except.ok p := by
  induction cs generalizing acc with
  | nil => exact ⟨acc, rfl⟩
  | cons c rest ih =>
    have hc := h c (List.mem_cons_self c rest)
    obtain ⟨kvs, hk⟩ := containerSafe_obj c hc
    subst hk
    simp only [K8s.containerSafe, Bool.and_eq_true] at hc
    have himg : ∃ s, (K8s.yLookup kvs "image").getD (.strV "") = YVal.strV s := by
      cases hl : K8s.yLookup kvs "image" with
      | none => exact ⟨"", by simp [hl]⟩
      | some v =>
        have hc2 := hc.2
        rw [hl] at hc2
        cases v <;> simp_all
    obtain ⟨s, hs⟩ := himg
    have h1 : K8s.pyGetD (.obj kvs) "image" (.strV "") = Except.ok (.strV s) := by
      simp [K8s.pyGetD, hs]
    obtain ⟨p1, hp1⟩ := ih (true, acc.2 || strEnds ":latest" s || !strHas ":" s)
      (fun x hx => h x (List.mem_cons_of_mem _ hx))
    obtain ⟨p2, hp2⟩ := ih acc (fun x hx => h x (List.mem_cons_of_mem _ hx))
    refine ⟨if yTruthy (.strV s) then p1 else p2, ?_⟩
    simp only [K8s.imagesDoc, h1, bind, Except.bind]
    split
    · simpa using hp1
    · simpa using hp2

theorem imagesFlag_ok (docs : List YVal) (acc : Bool × Bool)
    (h : ∀ d ∈ docs, K8s.docSafe d = true) :
    ∃ p, K8s.imagesFlag acc docs = Except.ok p := by
  induction docs generalizing acc with
  | nil => exact ⟨acc, rfl⟩
  | cons d rest ih =>
    obtain ⟨p1, h1⟩ := imagesDoc_ok (K8s.findContainerSpec d) acc
      (docSafe_containers d (h d (List.mem_cons_self d rest)))
    obtain ⟨p2, h2⟩ := ih p1 (fun x hx => h x (List.mem_cons_of_mem d hx))
    exact ⟨p2, by simp only [K8s.imagesFlag, h1, h2, bind, Except.bind]⟩

theorem computeFlags_ok (docs : List YVal) (h : ∀ d ∈ docs, K8s.docSafe d = true) :
    ∃ fl, K8s.computeFlags docs = Except.ok fl := by
  obtain ⟨b1, h1⟩ := hasResourcesFlag_ok docs h
  obtain ⟨p1, h2⟩ := probesFlag_ok docs (false, false) h
  obtain ⟨b2, h3⟩ := hpaFlag_ok docs h
  obtain ⟨b3, h4⟩ := netpolFlag_ok docs h
  obtain ⟨p2, h5⟩ := imagesFlag_ok docs (false, false) h
  exact ⟨⟨b1, p1.1, p1.2, b2, docs.any K8s.antiAffinityDoc, b3,
    (List.foldl K8s.secDoc (false, false) docs).1,
    (List.foldl K8s.secDoc (false, false) docs).2, p2.1, p2.2,
    List.foldl K8s.cmDoc false docs⟩,
    by simp only [K8s.computeFlags, h1, h2, h3, h4, h5, bind, Except.bind]⟩

/-- C3 (amended): the terraform, shell, python, pipeline and document
validators never propagate an exception (their runs always return a
check list), and the kubernetes validator returns normally whenever all
parsed documents are well-shaped; on ill-shaped documents it can raise
(see the counterexample). -/
theorem C3_validators_return_checks (env : Env) (sub : String) (q : Bool) :
    (∃ cs, terraformV.run env sub q = Except.ok cs) ∧
    (∃ cs, shellV.run env sub q = Except.ok cs) ∧
    (∃ cs, pythonV.run env sub q = Except.ok cs) ∧
    (∃ cs, pipelineV.run env sub q = Except.ok cs) ∧
    (∃ cs, documentV.run env sub q = Except.ok cs) ∧
    ((∀ d ∈ K8s.allDocs env sub, K8s.docSafe d = true) →
      ∃ cs, kubernetesV.run env sub q = Except.ok cs) := by
  refine ⟨⟨_, rfl⟩, ⟨_, rfl⟩, ⟨_, rfl⟩, ⟨_, rfl⟩, ⟨_, rfl⟩, fun h => ?_⟩
  show ∃ cs, K8s.validate env sub q = Except.ok cs
  simp only [K8s.validate]
  split
  · exact ⟨_, rfl⟩
  · split
    · exact ⟨_, rfl⟩
    · obtain ⟨fl, hfl⟩ := computeFlags_ok (K8s.allDocs env sub) h
      rw [hfl]
      exact ⟨_, rfl⟩

/-- C3 witness: on a concrete submission with one well-shaped
deployment manifest every validator, the kubernetes one included,
returns a check list. -/
theorem C3_validators_return_checks_witness :
    ∃ cs, kubernetesV.run envK8sGood "sub" false = Except.ok cs :=
  (C3_validators_return_checks envK8sGood "sub" false).2.2.2.2.2 (by decide)

/-- C3 counterexample: the kubernetes validator propagates an
AttributeError when a manifest's containers entry holds a bare string
(check 2 calls `.get` on it outside any try/except), so the claim that
no validator ever lets an exception escape is false. -/
theorem C3_k8s_validator_throws :
    K8s.validate envK8sBad "sub" false = Except.error "AttributeError" := by rfl

/-! ## C4: orchestrator fault isolation -/

/-- C4: for every module validator list, a validator invocation that
raises contributes exactly one synthetic error check naming the
validator and carrying the exception text, with zero points, while the
checks of the validators before and after it are exactly preserved
(`runModule name env sub q` is `runValidators vs env sub q` for the
module's validator list `vs`). -/
theorem C4_run_module_isolates_faults (pre post : List Validator) (v : Validator)
    (env : Env) (sub : String) (q : Bool) (e : String)
    (hraise : v.run env sub q = Except.error e) :
    runValidators (pre ++ v :: post) env sub q =
      runValidators pre env sub q ++
        [⟨"Validator error (" ++ v.name ++ ")", 0, 0, false, e⟩] ++
      runValidators post env sub q := by
  simp only [runValidators, List.flatMap_append, List.flatMap_cons, hraise,
    syntheticErrorCheck, List.append_assoc]

/-- C4 witness: the kubernetes validator raising on the ill-shaped
manifest is converted into exactly the synthetic error check. -/
theorem C4_run_module_isolates_faults_witness :
    runValidators [kubernetesV] envK8sBad "sub" false =
      [⟨"Validator error (evaluation.validators.kubernetes_validator)", 0, 0, false,
        "AttributeError"⟩] :=
  C4_run_module_isolates_faults [] [] kubernetesV envK8sBad "sub" false
    "AttributeError" (by rfl)

/-! ## C5: graceful degradation when the linter is unavailable -/

theorem runShellcheck_of_not_fail (env : Env) (h : ∀ p, env.shellcheck p ≠ SCRes.fail) :
    ∀ p, Shell.runShellcheck env p = true := by
  intro p
  unfold Shell.runShellcheck
  cases hv : env.shellcheck p
  · rfl
  · exact absurd hv (h p)
  · rfl
  · rfl

/-- C5 (amended): when no shellcheck invocation reports failure (the
binary is absent or every run times out), the shellcheck check passes
with its full 2 points provided at least one script has five or more
non-comment lines, and the document validator behaves exactly as if the
binary were absent (no remediation deduction).  Without a substantial
script the shellcheck check fails even with the linter absent (see the
counterexample), so "every linter-dependent check passes, independent of
script content" is false. -/
theorem C5_linter_absence_never_penalizes (env : Env) (sub : String) (q : Bool)
    (habs : ∀ p, env.shellcheck p ≠ SCRes.fail)
    (hscripts : 1 ≤ ((Shell.shFiles env sub).filter
      (fun p => decide (5 ≤ Shell.nonCommentCount (readS env p)))).length) :
    (Shell.validate env sub q).head? =
      some ⟨"shellcheck passes on .sh files", 2, 2, true, ""⟩ ∧
    Doc.validate env sub q =
      Doc.validate { env with shellcheck := fun _ => SCRes.notFound } sub q := by
  constructor
  · have hrun := runShellcheck_of_not_fail env habs
    have hfail : ∀ (l : List String),
        (l.map (fun p => (pyBasename p, true))).filter (fun r => !r.2) = [] := by
      intro l
      induction l with
      | nil => rfl
      | cons a t ih => simp [List.filter_cons, ih]
    simp only [Shell.validate, hrun]
    rw [hfail]
    have h0 : ¬((((Shell.shFiles env sub).filter
        (fun p => decide (5 ≤ Shell.nonCommentCount (readS env p)))).map
        (fun p => (pyBasename p, true))).length = 0) := by
      rw [List.length_map]; omega
    rw [if_neg h0]
    cases q <;> rfl
  · have h1 : ∀ p, decide (env.shellcheck p = SCRes.fail) = false :=
      fun p => decide_eq_false (habs p)
    have h2 : decide (SCRes.notFound = SCRes.fail) = false := rfl
    simp only [Doc.validate, Doc.countKw, readS, h1, h2, Bool.and_false]

/-- C5 witness: a submission with one five-line script and the
shellcheck binary absent everywhere earns the full 2 points. -/
theorem C5_linter_absence_never_penalizes_witness :
    (∀ p, envShellOk.shellcheck p ≠ SCRes.fail) ∧
    (Shell.validate envShellOk "sub" false).head? =
      some ⟨"shellcheck passes on .sh files", 2, 2, true, ""⟩ :=
  ⟨fun p h => SCRes.noConfusion h,
   (C5_linter_absence_never_penalizes envShellOk "sub" false
     (fun p h => SCRes.noConfusion h) (by decide)).1⟩

/-- C5 counterexample: with the shellcheck binary absent for every path
(never reporting failure), the shellcheck check still fails on a
submission with no substantial scripts, so the linter-dependent check
does not pass independently of script content. -/
theorem C5_linter_absent_check_fails :
    (∀ p, envEmpty.shellcheck p = SCRes.notFound) ∧
    (Shell.validate envEmpty "sub" false).head? =
      some ⟨"shellcheck passes on .sh files", 2, 0, false,
        "No shell scripts with content found"⟩ :=
  ⟨fun p => rfl, by decide⟩

/-! ## C6: quick mode versus full mode -/

/-- C6 (amended): for the terraform, shell, pipeline and document
validators the quick-mode output is a prefix of the full-mode output,
and for the kubernetes validator it is a prefix whenever both modes
return normally.  The python validator violates even set inclusion (see
the counterexample), and the document validator's quick checks are
keyword checks, so content-dependent checks do appear in quick mode. -/
theorem C6_quick_prefix_of_full (env : Env) (sub : String) :
    ListLeads (Tf.validate env sub true) (Tf.validate env sub false) ∧
    ListLeads (Shell.validate env sub true) (Shell.validate env sub false) ∧
    ListLeads (Pipe.validate env sub true) (Pipe.validate env sub false) ∧
    ListLeads (Doc.validate env sub true) (Doc.validate env sub false) ∧
    (∀ cs cs2, K8s.validate env sub true = Except.ok cs →
      K8s.validate env sub false = Except.ok cs2 → ListLeads cs cs2) := by
  refine ⟨?_, ?_, ?_, ?_, ?_⟩
  · by_cases hd : (!env.isDir (pj sub "terraform")) = true
    · refine ⟨[], ?_⟩
      simp only [Tf.validate]
      rw [if_pos hd, if_pos hd, List.append_nil]
    · simp only [Tf.validate]
      rw [if_neg hd, if_neg hd]
      exact ⟨_, rfl⟩
  · exact ⟨_, rfl⟩
  · exact ⟨_, rfl⟩
  · exact ⟨_, rfl⟩
  · intro cs cs2 hq hf
    simp only [K8s.validate] at hq hf
    by_cases hd : (!env.isDir (pj sub "k8s")) = true
    · rw [if_pos hd] at hq hf
      injection hq with h1
      injection hf with h2
      subst h1; subst h2
      exact ⟨[], by simp⟩
    · rw [if_neg hd] at hq hf
      rw [if_pos True.intro] at hq
      injection hq with h1
      cases hcf : K8s.computeFlags (K8s.allDocs env sub) with
      | error e =>
        rw [hcf] at hf
        exact absurd hf (by simp)
      | ok fl =>
        simp only [hcf] at hf
        injection hf with h2
        subst h1; subst h2
        exact ⟨_, rfl⟩

/-- C6 witness: on the well-shaped kubernetes submission both modes
return normally and the quick checks are a prefix of the full checks. -/
theorem C6_quick_prefix_of_full_witness :
    ∃ cs cs2, K8s.validate envK8sGood "sub" true = Except.ok cs ∧
      K8s.validate envK8sGood "sub" false = Except.ok cs2 ∧ ListLeads cs cs2 := by
  refine ⟨_, _, rfl, rfl, ?_⟩
  exact (C6_quick_prefix_of_full envK8sGood "sub").2.2.2.2 _ _ rfl rfl

/-- C6 counterexample: the python validator's quick-mode syntax check
(ceiling 1) does not appear in its full-mode output at all, so the
quick-mode checks are not a subset of the full-mode checks. -/
theorem C6_quick_check_not_in_full :
    (⟨"deploy.py: valid Python syntax", 1, 1, true, ""⟩ : Check) ∈
      Py.validate envStubs "sub" true ∧
    (⟨"deploy.py: valid Python syntax", 1, 1, true, ""⟩ : Check) ∉
      Py.validate envStubs "sub" false := by
  exact ⟨by decide, by decide⟩

/-! ## C9: stub routines never count as implemented -/

/-- C9: a parsed module whose routines contain only docstrings and
`pass` statements yields an empty implemented-function set, so the
python validator's rollback and healthcheck criteria score nothing (at
most 2 of 4 points, from syntax and argparse) and the shell validator's
camera-discovery functionality check awards zero points. -/
theorem C9_stub_routines_never_count (m : PyModule)
    (hstubs : ∀ f ∈ m.funcs, ∀ s ∈ f.body, s = PyStmt.passStmt ∨ s = PyStmt.docString) :
    implementedFuncs m = [] ∧ hasImplementedFuncs m = false ∧
    (∀ env sub, env.astParse (readS env (pj (pj sub "cicd") "deploy.py")) = some m →
      ∀ c ∈ Py.validate env sub false, c.points_awarded ≤ 2) ∧
    (∀ env sub,
      env.astParse (readS env (pj (pj sub "network") "camera_discovery.py")) = some m →
      (Shell.validate env sub false)[5]? =
        some ⟨"camera_discovery.py: XML parsing, JSON output, timeout", 3, 0, false,
          "Skeleton not implemented"⟩) := by
  have hreal : ∀ f ∈ m.funcs, realStmts f.body = [] := by
    intro f hf
    simp only [realStmts, List.filter_eq_nil_iff]
    intro s hs
    rcases hstubs f hf s hs with h | h <;> subst h <;> decide
  have h1 : implementedFuncs m = [] := by
    simp only [implementedFuncs, List.map_eq_nil_iff, List.filter_eq_nil_iff]
    intro f hf
    simp [hreal f hf]
  have key : ∀ (fs : List PyFunc), (∀ f ∈ fs, realStmts f.body = []) →
      ∀ (acc : List (String × Bool)), (∀ p ∈ acc, p.2 = false) →
      ∀ p ∈ fs.foldl funcImplStep acc, p.2 = false := by
    intro fs
    induction fs with
    | nil =>
      intro _ acc hacc
      simpa using hacc
    | cons f rest ih =>
      intro hall acc hacc
      simp only [List.foldl_cons]
      apply ih (fun g hg => hall g (List.mem_cons_of_mem f hg))
      intro p hp
      have hv : (!(realStmts f.body).isEmpty) = false := by
        rw [hall f (List.mem_cons_self f rest)]; rfl
      simp only [funcImplStep, hv] at hp
      split at hp
      · obtain ⟨q, hq, hpe⟩ := List.mem_map.mp hp
        subst hpe
        split
        · rfl
        · exact hacc q hq
      · rcases List.mem_append.mp hp with h | h
        · exact hacc p h
        · simp only [List.mem_singleton] at h
          subst h; rfl
  have h2 : hasImplementedFuncs m = false := by
    simp only [hasImplementedFuncs, funcImplMap, List.any_eq_false]
    intro p hp
    simp [key m.funcs hreal [] (by simp) p hp]
  refine ⟨h1, h2, ?_, ?_⟩
  · intro env sub hparse c hc
    by_cases h0 : readS env (pj (pj sub "cicd") "deploy.py") = ""
    · simp only [Py.validate, h0, if_pos] at hc
      simp only [List.mem_singleton] at hc
      subst hc
      decide
    · simp only [Py.validate] at hc
      rw [if_neg h0] at hc
      simp only [hparse, h1, List.any_nil] at hc
      rw [if_neg (fun h => Bool.noConfusion h)] at hc
      simp only [List.mem_singleton] at hc
      subst hc
      dsimp only
      rw [if_neg (show ¬(false = true) from fun h => Bool.noConfusion h)]
      split_ifs <;> norm_num
  · intro env sub hparse
    by_cases h0 : readS env (pj (pj sub "network") "camera_discovery.py") = ""
    · simp only [Shell.validate, h0]
      rfl
    · have h0' : readS env (pj (pj sub "network") "camera_discovery.py") ≠ "" := h0
      simp only [Shell.validate]
      rw [if_pos h0', if_pos h0']
      simp only [hparse, h2]
      rfl

/-- C9 witness: the stub deploy.py whose routine names match rollback
and health exactly scores at most 2 of 4 points. -/
theorem C9_stub_routines_never_count_witness :
    implementedFuncs stubPyModule = [] ∧
    (∀ c ∈ Py.validate envStubs "sub" false, c.points_awarded ≤ 2) := by
  obtain ⟨h1, h2, h3, h4⟩ := C9_stub_routines_never_count stubPyModule (by decide)
  exact ⟨h1, h3 envStubs "sub" rfl⟩

/-! ## C10: the SSH security-group check on empty terraform directories -/

/-- C10: when terraform/ exists and no .tf file matches the open-SSH
ingress pattern, the SSH check (position 3 of the full-mode output)
passes with its full 2 points; a missing terraform/ yields only the
single failing directory check, so an empty-but-present terraform
directory scores 2 points while an absent one scores 0. -/
theorem C10_tf_ssh_check (env : Env) (sub : String)
    (hdir : env.isDir (pj sub "terraform") = true)
    (hssh : ∀ fp ∈ Tf.tfFiles env sub, Tf.sshOpen (readS env fp.2) = false) :
    (Tf.validate env sub false)[3]? =
      some ⟨"Security groups: no 0.0.0.0/0 on SSH", 2, 2, true, ""⟩ ∧
    Tf.validate envEmpty "sub" false =
      [⟨"Terraform directory exists", 5, 0, false, "submission/terraform/ not found"⟩] ∧
    checksPts (Tf.validate envTfEmpty "sub" false) = 2 ∧
    checksPts (Tf.validate envEmpty "sub" false) = 0 := by
  refine ⟨?_, by decide, by decide, by decide⟩
  have hopen : (Tf.tfFiles env sub).any (fun fp => Tf.sshOpen (readS env fp.2)) = false := by
    rw [List.any_eq_false]
    intro fp hfp
    simp [hssh fp hfp]
  simp only [Tf.validate, hdir]
  rw [hopen]
  rfl

/-- C10 witness: the empty-but-present terraform directory passes the
SSH check with 2 points. -/
theorem C10_tf_ssh_check_witness :
    (Tf.validate envTfEmpty "sub" false)[3]? =
      some ⟨"Security groups: no 0.0.0.0/0 on SSH", 2, 2, true, ""⟩ :=
  (C10_tf_ssh_check envTfEmpty "sub" (by decide)
    (fun fp hfp => absurd hfp (List.not_mem_nil fp))).1

/-! ## C2: the all-empty submission scenario -/

theorem cpFalse {α : Type} (l : List α) : (l.countP (fun _ => false)) = 0 := by
  induction l with
  | nil => rfl
  | cons a t ih => simp [List.countP_cons, ih]

/-- C2: on a submission root that exists while every domain
subdirectory is missing, every file read fails and no keyword pattern
matches, full-mode evaluation of all modules returns total 0 of 100,
band "No Hire", and five modules whose check lists are non-empty with
every check failing at zero points. -/
theorem C2_empty_submission_no_hire (env : Env) (sub : String)
    (hsub : env.isDir sub = true)
    (htf : env.isDir (pj sub "terraform") = false)
    (hk8s : env.isDir (pj sub "k8s") = false)
    (hnet : env.isDir (pj sub "network") = false)
    (hedge : env.isDir (pj sub "edge") = false)
    (hread : ∀ p, env.readFile p = none)
    (hrm : ∀ pat s, env.rmatch pat s = false) :
    ∃ r, evaluate env sub none false = some r ∧
      r.total_score = 0 ∧ r.max_score = 100 ∧ r.band = "No Hire" ∧
      r.modules.length = 5 ∧
      ∀ mr ∈ r.modules, mr.2.checks ≠ [] ∧
        ∀ c ∈ mr.2.checks, c.passed = false ∧ c.points_awarded = 0 := by
  have hreadS : ∀ p, readS env p = "" := by
    intro p; simp [readS, hread]
  have hT : Tf.validate env sub false =
      [⟨"Terraform directory exists", 5, 0, false, "submission/terraform/ not found"⟩] := by
    simp only [Tf.validate, htf]
    rfl
  have hK : K8s.validate env sub false =
      Except.ok [⟨"K8s directory exists", 3, 0, false, "submission/k8s/ not found"⟩] := by
    simp only [K8s.validate, hk8s]
    rfl
  have hPy : Py.validate env sub false =
      [⟨"deploy.py exists", 4, 0, false, "File not found or empty"⟩] := by
    simp only [Py.validate, hreadS]
    rfl
  have hSh : Shell.validate env sub false =
      [⟨"shellcheck passes on .sh files", 2, 0, false, "No shell scripts with content found"⟩,
       ⟨"Python syntax valid (camera_discovery.py)", 1, 0, false, ""⟩,
       ⟨"Firewall: default DROP policy", 3, 0, false, ""⟩,
       ⟨"Firewall: RTSP, HTTPS, SSH, camera isolation", 3, 0, false, "Missing firewall rules"⟩,
       ⟨"setup.sh: Docker, NTP, log rotation, systemd, error handling", 5, 0, false,
         "Found:  (0/5)"⟩,
       ⟨"camera_discovery.py: XML parsing, JSON output, timeout", 3, 0, false,
         "Skeleton not implemented"⟩,
       ⟨"site_plan.md: VLAN design, IP scheme, isolation", 2, 0, false,
         "VLAN keywords=0, IP keywords=0"⟩,
       ⟨"golden_image.md: creation process, patching strategy", 1, 0, false,
         "Concept keywords matched: 0"⟩] := by
    have hsf : Shell.shFiles env sub = [] := by
      simp [Shell.shFiles, hnet, hedge]
    simp only [Shell.validate, hsf, hreadS, hrm, cpFalse]
    rfl
  have hPipe : Pipe.validate env sub false =
      [⟨"Pipeline YAML syntax", 1, 0, false, "pipeline.yaml is empty"⟩,
       ⟨"Build + test + deploy stages in order", 3, 0, false,
         "build=no, test=no, deploy=no, order=correct"⟩,
       ⟨"ECR push, staging deploy, prod manual gate", 3, 0, false, "Missing deployment stages"⟩,
       ⟨"Rollback/failure handling in pipeline", 1, 0, false, ""⟩,
       ⟨"monitoring_setup.md: metrics, SLOs, alerting, escalation", 3, 0, false,
         "Insufficient monitoring detail"⟩] := by
    simp only [Pipe.validate, hreadS, hrm, cpFalse]
    rfl
  have hDoc : Doc.validate env sub false =
      [⟨"RCA: identifies MTU as root cause", 3, 0, false, "MTU-related keywords matched: 0"⟩,
       ⟨"RCA: identifies VPN tunnel + packet fragmentation", 3, 0, false,
         "VPN-related keywords matched: 0"⟩,
       ⟨"RCA: correct timeline reconstruction", 1, 0, false, "Timeline keywords matched: 0"⟩,
       ⟨"remediation.sh: sets MTU, passes shellcheck", 3, 0, false, "Script not implemented"⟩,
       ⟨"postmortem.md: all sections, action items", 2, 0, false,
         "Sections matched: 0, action items: no"⟩,
       ⟨"product_recommendations.md: monitoring + automated detection", 3, 0, false,
         "Monitoring/detection keywords matched: 0"⟩] := by
    simp only [Doc.validate, Doc.countKw, hreadS, hrm, cpFalse]
    rfl
  have hM : evaluate env sub none false = some (computeTotalScore
      [("terraform", runModule "terraform" env sub false),
       ("k8s", runModule "k8s" env sub false),
       ("network", runModule "network" env sub false),
       ("cicd", runModule "cicd" env sub false),
       ("debug", runModule "debug" env sub false)]) := by
    simp only [evaluate]
    rw [hsub]
    rfl
  rw [hM, runModule_terraform, runModule_k8s, runModule_network, runModule_cicd,
    runModule_debug, hT, hK, hSh, hPipe, hPy, hDoc]
  exact ⟨_, rfl, by decide, by decide, by decide, by decide, by decide⟩

/-- C2 witness: the concrete empty submission environment evaluates to
0 of 100 and "No Hire". -/
theorem C2_empty_submission_no_hire_witness :
    ∃ r, evaluate envEmpty "sub" none false = some r ∧
      r.total_score = 0 ∧ r.max_score = 100 ∧ r.band = "No Hire" := by
  obtain ⟨r, h1, h2, h3, h4, _⟩ := C2_empty_submission_no_hire envEmpty "sub"
    (by decide) (by decide) (by decide) (by decide) (by decide)
    (fun p => rfl) (fun pat s => rfl)
  exact ⟨r, h1, h2, h3, h4⟩
